import Mathlib

/-!
Shallow embedding of the mockchain ledger (src/db.rs, src/tx.rs).

Amounts in the source are `rust_decimal::Decimal` values, an exact
scaled-decimal representation.  The ledger only ever adds, subtracts,
negates and compares amounts, and under those operations a fixed-scale
exact decimal behaves exactly like the integers of its smallest unit,
so amounts are modelled as `Int` (the number of smallest decimal units).

`HashMap`/`BTreeMap` are modelled as association lists with unique keys:
`aget` is `get`/`contains_key`, `aset` is `insert` (replace-or-append),
matching the pointwise semantics of the Rust maps.
-/

/-- Amounts: exact decimals, modelled as integers of the smallest unit. -/
abbrev Amount := Int

/-- Client ID (`u16` in the source; the width is irrelevant to the claims). -/
abbrev ClientId := Nat

/-- Transaction ID (`u32` in `db.rs`). -/
abbrev TxId := Nat

/-- Association-list lookup, modelling `HashMap::get` / `contains_key`. -/
def aget {β : Type} (k : Nat) : List (Nat × β) → Option β
  | [] => none
  | (k', v) :: m => if k' = k then some v else aget k m

/-- Association-list insert/update, modelling `HashMap::insert` and
`entry(..).or_insert(..)` followed by mutation through the entry. -/
def aset {β : Type} (k : Nat) (v : β) : List (Nat × β) → List (Nat × β)
  | [] => [(k, v)]
  | (k', v') :: m => if k' = k then (k, v) :: m else (k', v') :: aset k v m

theorem aget_aset {β : Type} (k k' : Nat) (v : β) (m : List (Nat × β)) :
    aget k' (aset k v m) = if k = k' then some v else aget k' m := by
  induction m with
  | nil =>
    by_cases h : k = k' <;> simp [aset, aget, h]
  | cons p m ih =>
    obtain ⟨k0, v0⟩ := p
    by_cases h0 : k0 = k
    · subst h0
      by_cases h : k0 = k' <;> simp [aset, aget, h]
    · by_cases h : k0 = k'
      · have hk : ¬ k = k' := fun hh => h0 (h.trans hh.symm)
        have hk2 : ¬ k' = k := fun hh => hk hh.symm
        simp [aset, aget, h0, h, hk, hk2]
      · simp [aset, aget, h0, h, ih]

/-- One distinct error per `ensure!`/`anyhow!` bail site in `db.rs`. -/
inductive LedgerError : Type
  /-- "negative deposit" -/
  | negativeDeposit
  /-- "negative withdrawal" -/
  | negativeWithdrawal
  /-- "cannot withdraw .., only .. available" -/
  | insufficientAvailable
  /-- "negative hold" -/
  | negativeHold
  /-- "negative release" -/
  | negativeRelease
  /-- "cannot release .., only .. held" -/
  | insufficientHeld
  /-- "negative chargeback" -/
  | negativeChargeback
  /-- "cannot chargeback .., only .. held" -/
  | insufficientHeldChargeback
  /-- "duplicate transaction id" -/
  | duplicateTx
  /-- "no such client" -/
  | noSuchClient
  /-- "no such tx" -/
  | noSuchTx
  /-- "cannot dispute a withdrawal" -/
  | notDisputable
  /-- "cannot resolve a withdrawal" -/
  | notResolvable
  /-- "cannot chargeback a withdrawal" -/
  | notChargebackable
deriving DecidableEq

/-- A client's funds and account status (`Client` in `db.rs`). -/
structure Client : Type where
  id : ClientId
  available : Amount
  held : Amount
  locked : Bool
deriving DecidableEq

/-- `Client::new`: zero balances, unlocked. -/
def Client.new (id : ClientId) : Client :=
  { id := id, available := 0, held := 0, locked := false }

/-- `Client::deposit`: `ensure!(amount >= 0); self.available += amount`. -/
def Client.deposit (c : Client) (amount : Amount) : Except LedgerError Client :=
  if amount < 0 then .error .negativeDeposit
  else .ok { c with available := c.available + amount }

/-- `Client::withdraw`: `ensure!(amount >= 0); ensure!(amount <= self.available);
self.available -= amount`. -/
def Client.withdraw (c : Client) (amount : Amount) : Except LedgerError Client :=
  if amount < 0 then .error .negativeWithdrawal
  else if c.available < amount then .error .insufficientAvailable
  else .ok { c with available := c.available - amount }

/-- `Client::hold`: `ensure!(amount >= 0); self.available -= amount;
self.held += amount`.  Note: no check against `self.available`. -/
def Client.hold (c : Client) (amount : Amount) : Except LedgerError Client :=
  if amount < 0 then .error .negativeHold
  else .ok { c with available := c.available - amount, held := c.held + amount }

/-- `Client::release`: `ensure!(amount >= 0); ensure!(amount <= self.held);
self.available += amount; self.held -= amount`. -/
def Client.release (c : Client) (amount : Amount) : Except LedgerError Client :=
  if amount < 0 then .error .negativeRelease
  else if c.held < amount then .error .insufficientHeld
  else .ok { c with available := c.available + amount, held := c.held - amount }

/-- `Client::chargeback`: `ensure!(amount >= 0); ensure!(amount <= self.held);
self.held -= amount; self.locked = true`. -/
def Client.chargeback (c : Client) (amount : Amount) : Except LedgerError Client :=
  if amount < 0 then .error .negativeChargeback
  else if c.held < amount then .error .insufficientHeldChargeback
  else .ok { c with held := c.held - amount, locked := true }

/-- A stored deposit or withdrawal (`Tx` in `db.rs`): a positive `amount` is a
deposit, a negative one a withdrawal. -/
structure Tx : Type where
  id : TxId
  amount : Amount
deriving DecidableEq

/-- `Database` in `db.rs`: the client table and the transaction table. -/
structure Database : Type where
  clients : List (ClientId × Client)
  txs : List (TxId × Tx)
deriving DecidableEq

/-- `Database::new`. -/
def Database.new : Database := { clients := [], txs := [] }

/-- `Database::deposit`.  The duplicate-tx check runs first; then
`self.client(client_id)` creates the client if absent (that creation persists
even when the subsequent `Client::deposit` fails); on success the updated
client and the new `Tx` are stored.  The result pairs the outcome
(`none` = `Ok(())`) with the database after the call. -/
def Database.deposit (db : Database) (client_id : ClientId) (tx_id : TxId)
    (amount : Amount) : Option LedgerError × Database :=
  if (aget tx_id db.txs).isSome then (some .duplicateTx, db)
  else
    match aget client_id db.clients with
    | some c =>
      match c.deposit amount with
      | .error e => (some e, db)
      | .ok c1 =>
        (none, { clients := aset client_id c1 db.clients,
                 txs := aset tx_id ⟨tx_id, amount⟩ db.txs })
    | none =>
      match (Client.new client_id).deposit amount with
      | .error e =>
        (some e, { db with clients := aset client_id (Client.new client_id) db.clients })
      | .ok c1 =>
        (none, { clients := aset client_id c1 db.clients,
                 txs := aset tx_id ⟨tx_id, amount⟩ db.txs })

/-- `Database::withdraw`: as `deposit`, but debits and stores `-amount`. -/
def Database.withdraw (db : Database) (client_id : ClientId) (tx_id : TxId)
    (amount : Amount) : Option LedgerError × Database :=
  if (aget tx_id db.txs).isSome then (some .duplicateTx, db)
  else
    match aget client_id db.clients with
    | some c =>
      match c.withdraw amount with
      | .error e => (some e, db)
      | .ok c1 =>
        (none, { clients := aset client_id c1 db.clients,
                 txs := aset tx_id ⟨tx_id, -amount⟩ db.txs })
    | none =>
      match (Client.new client_id).withdraw amount with
      | .error e =>
        (some e, { db with clients := aset client_id (Client.new client_id) db.clients })
      | .ok c1 =>
        (none, { clients := aset client_id c1 db.clients,
                 txs := aset tx_id ⟨tx_id, -amount⟩ db.txs })

/-- `Database::dispute`: look up client then tx (`lookup`), reject stored
withdrawals (`tx.amount < 0`), then `Client::hold(tx.amount)`. -/
def Database.dispute (db : Database) (client_id : ClientId) (tx_id : TxId) :
    Option LedgerError × Database :=
  match aget client_id db.clients with
  | none => (some .noSuchClient, db)
  | some c =>
    match aget tx_id db.txs with
    | none => (some .noSuchTx, db)
    | some tx =>
      if tx.amount < 0 then (some .notDisputable, db)
      else
        match c.hold tx.amount with
        | .error e => (some e, db)
        | .ok c1 => (none, { db with clients := aset client_id c1 db.clients })

/-- `Database::resolve`: lookups, reject stored withdrawals, then
`Client::release(tx.amount)`. -/
def Database.resolve (db : Database) (client_id : ClientId) (tx_id : TxId) :
    Option LedgerError × Database :=
  match aget client_id db.clients with
  | none => (some .noSuchClient, db)
  | some c =>
    match aget tx_id db.txs with
    | none => (some .noSuchTx, db)
    | some tx =>
      if tx.amount < 0 then (some .notResolvable, db)
      else
        match c.release tx.amount with
        | .error e => (some e, db)
        | .ok c1 => (none, { db with clients := aset client_id c1 db.clients })

/-- `Database::chargeback`: lookups, reject stored withdrawals, then
`Client::chargeback(tx.amount)`. -/
def Database.chargeback (db : Database) (client_id : ClientId) (tx_id : TxId) :
    Option LedgerError × Database :=
  match aget client_id db.clients with
  | none => (some .noSuchClient, db)
  | some c =>
    match aget tx_id db.txs with
    | none => (some .noSuchTx, db)
    | some tx =>
      if tx.amount < 0 then (some .notChargebackable, db)
      else
        match c.chargeback tx.amount with
        | .error e => (some e, db)
        | .ok c1 => (none, { db with clients := aset client_id c1 db.clients })

/-- One parsed transaction record (`Record` in `tx.rs` / `main.rs`). -/
inductive Record : Type
  | deposit (client : ClientId) (tx : TxId) (amount : Amount)
  | withdrawal (client : ClientId) (tx : TxId) (amount : Amount)
  | dispute (client : ClientId) (tx : TxId)
  | resolve (client : ClientId) (tx : TxId)
  | chargeback (client : ClientId) (tx : TxId)
deriving DecidableEq

/-- Dispatch one record to the corresponding `Database` operation. -/
def Database.applyRecord (db : Database) : Record → Option LedgerError × Database
  | .deposit c t a => db.deposit c t a
  | .withdrawal c t a => db.withdraw c t a
  | .dispute c t => db.dispute c t
  | .resolve c t => db.resolve c t
  | .chargeback c t => db.chargeback c t

/-- Apply records one at a time, keeping the post-state of every record,
successful or failed (per-record failures are non-fatal to the run). -/
def Database.runRecords (db : Database) : List Record → Database
  | [] => db
  | r :: rs => ((db.applyRecord r).2).runRecords rs

/-- The available funds of a client, `0` for an absent client. -/
def availOf (db : Database) (cid : ClientId) : Amount :=
  ((aget cid db.clients).map Client.available).getD 0

/-- The held funds of a client, `0` for an absent client. -/
def heldOf (db : Database) (cid : ClientId) : Amount :=
  ((aget cid db.clients).map Client.held).getD 0

/-- The locked flag of a client, `false` for an absent client. -/
def lockedOf (db : Database) (cid : ClientId) : Bool :=
  ((aget cid db.clients).map Client.locked).getD false

/-- The `(available, held)` pair of a client, if present. -/
def projAH (db : Database) (cid : ClientId) : Option (Amount × Amount) :=
  (aget cid db.clients).map fun c => (c.available, c.held)

/-- Does a record list contain a dispute record? -/
def hasDispute : List Record → Bool
  | [] => false
  | .dispute _ _ :: _ => true
  | _ :: rs => hasDispute rs

namespace Batch

/-!
Embedding of the earlier batch draft in `src/tx.rs`: its own `Client` with
`add_available`/`add_held`, and the `process` function that folds a record
list over `BTreeMap`s.  Per-record rejections print a diagnostic and
`continue`; a duplicate transaction id `bail!`s the whole run, and the
`Chargeback` arm is `todo!()` (a panic), both modelled as run-level errors.
-/

/-- `Client` in `tx.rs`. -/
structure Client : Type where
  id : ClientId
  available : Amount
  held : Amount
  locked : Bool
deriving DecidableEq

/-- `Client::new` in `tx.rs`. -/
def Client.new (id : ClientId) : Client :=
  { id := id, available := 0, held := 0, locked := false }

/-- `Client::add_available`: fails if `self.available + amount < 0`. -/
def Client.add_available (c : Client) (amount : Amount) : Option Client :=
  if c.available + amount < 0 then none
  else some { c with available := c.available + amount }

/-- `Client::add_held`: fails if `self.available - amount < 0` or
`self.held + amount < 0`; else moves `amount` from available to held. -/
def Client.add_held (c : Client) (amount : Amount) : Option Client :=
  if c.available - amount < 0 then none
  else if c.held + amount < 0 then none
  else some { c with available := c.available - amount, held := c.held + amount }

/-- Run-aborting outcomes of `process`: the `bail!` on a duplicate
transaction id, the `todo!()` panic in the `Chargeback` arm, and the
(unreachable) `expect` panic on a failed deposit. -/
inductive Failure : Type
  | duplicateTx
  | chargebackTodo
  | depositPanic
deriving DecidableEq

/-- The body of `process`'s `for` loop for one record. -/
def stepRecord (clients : List (ClientId × Client)) (txs : List (TxId × Tx)) :
    Record → Except Failure (List (ClientId × Client) × List (TxId × Tx))
  | .deposit cid tid a =>
    if a < 0 then .ok (clients, txs)
    else
      match ((aget cid clients).getD (Client.new cid)).add_available a with
      | none => .error .depositPanic
      | some c1 =>
        if (aget tid txs).isSome then .error .duplicateTx
        else .ok (aset cid c1 clients, aset tid ⟨tid, a⟩ txs)
  | .withdrawal cid tid a =>
    if a < 0 then .ok (clients, txs)
    else
      match ((aget cid clients).getD (Client.new cid)).add_available (-a) with
      | none => .ok (aset cid ((aget cid clients).getD (Client.new cid)) clients, txs)
      | some c1 =>
        if (aget tid txs).isSome then .error .duplicateTx
        else .ok (aset cid c1 clients, aset tid ⟨tid, -a⟩ txs)
  | .dispute cid tid =>
    match aget cid clients with
    | none => .ok (clients, txs)
    | some c =>
      match aget tid txs with
      | none => .ok (clients, txs)
      | some tx =>
        match c.add_held tx.amount with
        | none => .ok (clients, txs)
        | some c1 => .ok (aset cid c1 clients, txs)
  | .resolve cid tid =>
    match aget cid clients with
    | none => .ok (clients, txs)
    | some c =>
      match aget tid txs with
      | none => .ok (clients, txs)
      | some tx =>
        match c.add_held (-tx.amount) with
        | none => .ok (clients, txs)
        | some c1 => .ok (aset cid c1 clients, txs)
  | .chargeback _ _ => .error .chargebackTodo

/-- The `for` loop of `process`. -/
def processGo : List Record → List (ClientId × Client) → List (TxId × Tx) →
    Except Failure (List (ClientId × Client))
  | [], clients, _ => .ok clients
  | r :: rs, clients, txs =>
    match stepRecord clients txs r with
    | .error f => .error f
    | .ok (cs, ts) => processGo rs cs ts

/-- `process` in `tx.rs`: fold the records over empty maps and return the
final client table (or a run-aborting failure). -/
def process (records : List Record) : Except Failure (List (ClientId × Client)) :=
  processGo records [] []

end Batch

/-! ### Inversion lemmas for the `Client` operations -/

theorem Client.deposit_ok {c c1 : Client} {a : Amount} (h : c.deposit a = .ok c1) :
    0 ≤ a ∧ c1 = { c with available := c.available + a } := by
  unfold Client.deposit at h
  split_ifs at h with h1
  simp_all [not_lt]

theorem Client.withdraw_ok {c c1 : Client} {a : Amount} (h : c.withdraw a = .ok c1) :
    0 ≤ a ∧ a ≤ c.available ∧ c1 = { c with available := c.available - a } := by
  unfold Client.withdraw at h
  split_ifs at h with h1 h2
  simp_all [not_lt]

theorem Client.hold_ok {c c1 : Client} {a : Amount} (h : c.hold a = .ok c1) :
    0 ≤ a ∧ c1 = { c with available := c.available - a, held := c.held + a } := by
  unfold Client.hold at h
  split_ifs at h with h1
  simp_all [not_lt]

theorem Client.release_ok {c c1 : Client} {a : Amount} (h : c.release a = .ok c1) :
    0 ≤ a ∧ a ≤ c.held ∧
      c1 = { c with available := c.available + a, held := c.held - a } := by
  unfold Client.release at h
  split_ifs at h with h1 h2
  simp_all [not_lt]

theorem Client.chargeback_invert {c c1 : Client} {a : Amount} (h : c.chargeback a = .ok c1) :
    0 ≤ a ∧ a ≤ c.held ∧ c1 = { c with held := c.held - a, locked := true } := by
  unfold Client.chargeback at h
  split_ifs at h with h1 h2
  simp_all [not_lt]

/-! ### Case equations for `Database.deposit` -/

theorem Database.deposit_dup {db : Database} {cid tid : Nat} {a : Amount}
    (hdup : (aget tid db.txs).isSome = true) :
    db.deposit cid tid a = (some .duplicateTx, db) := by
  simp [Database.deposit, hdup]

theorem Database.deposit_some_err {db : Database} {cid tid : Nat} {a : Amount}
    {c0 : Client} {e : LedgerError}
    (hdup : (aget tid db.txs).isSome = false)
    (hc : aget cid db.clients = some c0) (hd : c0.deposit a = .error e) :
    db.deposit cid tid a = (some e, db) := by
  simp [Database.deposit, hdup, hc, hd]

theorem Database.deposit_some_ok {db : Database} {cid tid : Nat} {a : Amount}
    {c0 c1 : Client}
    (hdup : (aget tid db.txs).isSome = false)
    (hc : aget cid db.clients = some c0) (hd : c0.deposit a = .ok c1) :
    db.deposit cid tid a =
      (none, { clients := aset cid c1 db.clients,
               txs := aset tid ⟨tid, a⟩ db.txs }) := by
  simp [Database.deposit, hdup, hc, hd]

theorem Database.deposit_none_err {db : Database} {cid tid : Nat} {a : Amount}
    {e : LedgerError}
    (hdup : (aget tid db.txs).isSome = false)
    (hc : aget cid db.clients = none) (hd : (Client.new cid).deposit a = .error e) :
    db.deposit cid tid a =
      (some e, { db with clients := aset cid (Client.new cid) db.clients }) := by
  simp [Database.deposit, hdup, hc, hd]

theorem Database.deposit_none_ok {db : Database} {cid tid : Nat} {a : Amount}
    {c1 : Client}
    (hdup : (aget tid db.txs).isSome = false)
    (hc : aget cid db.clients = none) (hd : (Client.new cid).deposit a = .ok c1) :
    db.deposit cid tid a =
      (none, { clients := aset cid c1 db.clients,
               txs := aset tid ⟨tid, a⟩ db.txs }) := by
  simp [Database.deposit, hdup, hc, hd]

/-! ### Case equations for `Database.withdraw` -/

theorem Database.withdraw_dup {db : Database} {cid tid : Nat} {a : Amount}
    (hdup : (aget tid db.txs).isSome = true) :
    db.withdraw cid tid a = (some .duplicateTx, db) := by
  simp [Database.withdraw, hdup]

theorem Database.withdraw_some_err {db : Database} {cid tid : Nat} {a : Amount}
    {c0 : Client} {e : LedgerError}
    (hdup : (aget tid db.txs).isSome = false)
    (hc : aget cid db.clients = some c0) (hd : c0.withdraw a = .error e) :
    db.withdraw cid tid a = (some e, db) := by
  simp [Database.withdraw, hdup, hc, hd]

theorem Database.withdraw_some_ok {db : Database} {cid tid : Nat} {a : Amount}
    {c0 c1 : Client}
    (hdup : (aget tid db.txs).isSome = false)
    (hc : aget cid db.clients = some c0) (hd : c0.withdraw a = .ok c1) :
    db.withdraw cid tid a =
      (none, { clients := aset cid c1 db.clients,
               txs := aset tid ⟨tid, -a⟩ db.txs }) := by
  simp [Database.withdraw, hdup, hc, hd]

theorem Database.withdraw_none_err {db : Database} {cid tid : Nat} {a : Amount}
    {e : LedgerError}
    (hdup : (aget tid db.txs).isSome = false)
    (hc : aget cid db.clients = none) (hd : (Client.new cid).withdraw a = .error e) :
    db.withdraw cid tid a =
      (some e, { db with clients := aset cid (Client.new cid) db.clients }) := by
  simp [Database.withdraw, hdup, hc, hd]

theorem Database.withdraw_none_ok {db : Database} {cid tid : Nat} {a : Amount}
    {c1 : Client}
    (hdup : (aget tid db.txs).isSome = false)
    (hc : aget cid db.clients = none) (hd : (Client.new cid).withdraw a = .ok c1) :
    db.withdraw cid tid a =
      (none, { clients := aset cid c1 db.clients,
               txs := aset tid ⟨tid, -a⟩ db.txs }) := by
  simp [Database.withdraw, hdup, hc, hd]

/-! ### Case equations for `Database.dispute`, `resolve`, `chargeback` -/

theorem Database.dispute_noClient {db : Database} {cid tid : Nat}
    (hc : aget cid db.clients = none) :
    db.dispute cid tid = (some .noSuchClient, db) := by
  simp [Database.dispute, hc]

theorem Database.dispute_noTx {db : Database} {cid tid : Nat} {c0 : Client}
    (hc : aget cid db.clients = some c0) (ht : aget tid db.txs = none) :
    db.dispute cid tid = (some .noSuchTx, db) := by
  simp [Database.dispute, hc, ht]

theorem Database.dispute_neg {db : Database} {cid tid : Nat} {c0 : Client} {tx : Tx}
    (hc : aget cid db.clients = some c0) (ht : aget tid db.txs = some tx)
    (hn : tx.amount < 0) :
    db.dispute cid tid = (some .notDisputable, db) := by
  simp [Database.dispute, hc, ht, hn]

theorem Database.dispute_err {db : Database} {cid tid : Nat} {c0 : Client} {tx : Tx}
    {e : LedgerError}
    (hc : aget cid db.clients = some c0) (ht : aget tid db.txs = some tx)
    (hn : ¬ tx.amount < 0) (hd : c0.hold tx.amount = .error e) :
    db.dispute cid tid = (some e, db) := by
  simp [Database.dispute, hc, ht, hn, hd]

theorem Database.dispute_ok {db : Database} {cid tid : Nat} {c0 c1 : Client} {tx : Tx}
    (hc : aget cid db.clients = some c0) (ht : aget tid db.txs = some tx)
    (hn : ¬ tx.amount < 0) (hd : c0.hold tx.amount = .ok c1) :
    db.dispute cid tid = (none, { db with clients := aset cid c1 db.clients }) := by
  simp [Database.dispute, hc, ht, hn, hd]

theorem Database.resolve_noClient {db : Database} {cid tid : Nat}
    (hc : aget cid db.clients = none) :
    db.resolve cid tid = (some .noSuchClient, db) := by
  simp [Database.resolve, hc]

theorem Database.resolve_noTx {db : Database} {cid tid : Nat} {c0 : Client}
    (hc : aget cid db.clients = some c0) (ht : aget tid db.txs = none) :
    db.resolve cid tid = (some .noSuchTx, db) := by
  simp [Database.resolve, hc, ht]

theorem Database.resolve_neg {db : Database} {cid tid : Nat} {c0 : Client} {tx : Tx}
    (hc : aget cid db.clients = some c0) (ht : aget tid db.txs = some tx)
    (hn : tx.amount < 0) :
    db.resolve cid tid = (some .notResolvable, db) := by
  simp [Database.resolve, hc, ht, hn]

theorem Database.resolve_err {db : Database} {cid tid : Nat} {c0 : Client} {tx : Tx}
    {e : LedgerError}
    (hc : aget cid db.clients = some c0) (ht : aget tid db.txs = some tx)
    (hn : ¬ tx.amount < 0) (hd : c0.release tx.amount = .error e) :
    db.resolve cid tid = (some e, db) := by
  simp [Database.resolve, hc, ht, hn, hd]

theorem Database.resolve_ok {db : Database} {cid tid : Nat} {c0 c1 : Client} {tx : Tx}
    (hc : aget cid db.clients = some c0) (ht : aget tid db.txs = some tx)
    (hn : ¬ tx.amount < 0) (hd : c0.release tx.amount = .ok c1) :
    db.resolve cid tid = (none, { db with clients := aset cid c1 db.clients }) := by
  simp [Database.resolve, hc, ht, hn, hd]

theorem Database.chargeback_noClient {db : Database} {cid tid : Nat}
    (hc : aget cid db.clients = none) :
    db.chargeback cid tid = (some .noSuchClient, db) := by
  simp [Database.chargeback, hc]

theorem Database.chargeback_noTx {db : Database} {cid tid : Nat} {c0 : Client}
    (hc : aget cid db.clients = some c0) (ht : aget tid db.txs = none) :
    db.chargeback cid tid = (some .noSuchTx, db) := by
  simp [Database.chargeback, hc, ht]

theorem Database.chargeback_neg {db : Database} {cid tid : Nat} {c0 : Client} {tx : Tx}
    (hc : aget cid db.clients = some c0) (ht : aget tid db.txs = some tx)
    (hn : tx.amount < 0) :
    db.chargeback cid tid = (some .notChargebackable, db) := by
  simp [Database.chargeback, hc, ht, hn]

theorem Database.chargeback_err {db : Database} {cid tid : Nat} {c0 : Client} {tx : Tx}
    {e : LedgerError}
    (hc : aget cid db.clients = some c0) (ht : aget tid db.txs = some tx)
    (hn : ¬ tx.amount < 0) (hd : c0.chargeback tx.amount = .error e) :
    db.chargeback cid tid = (some e, db) := by
  simp [Database.chargeback, hc, ht, hn, hd]

theorem Database.chargeback_ok {db : Database} {cid tid : Nat} {c0 c1 : Client} {tx : Tx}
    (hc : aget cid db.clients = some c0) (ht : aget tid db.txs = some tx)
    (hn : ¬ tx.amount < 0) (hd : c0.chargeback tx.amount = .ok c1) :
    db.chargeback cid tid = (none, { db with clients := aset cid c1 db.clients }) := by
  simp [Database.chargeback, hc, ht, hn, hd]

/-! ### Invariants of the client table -/

/-- Every stored client has nonnegative held funds. -/
def HeldInv (db : Database) : Prop :=
  ∀ k c, aget k db.clients = some c → 0 ≤ c.held

/-- Every stored client has nonnegative available funds. -/
def AvailInv (db : Database) : Prop :=
  ∀ k c, aget k db.clients = some c → 0 ≤ c.available

/-- Is a record a dispute? -/
def Record.isDispute : Record → Bool
  | .dispute _ _ => true
  | _ => false

theorem aget_aset_forall {β : Type} {P : β → Prop} {m : List (Nat × β)} {k0 : Nat} {v : β}
    (h : ∀ k x, aget k m = some x → P x) (hv : P v) :
    ∀ k x, aget k (aset k0 v m) = some x → P x := by
  intro k x hk
  rw [aget_aset] at hk
  split_ifs at hk with he
  · cases hk
    exact hv
  · exact h k x hk

theorem heldInv_deposit {db : Database} {cid tid : Nat} {a : Amount}
    (h : HeldInv db) : HeldInv (db.deposit cid tid a).2 := by
  cases hdup : (aget tid db.txs).isSome with
  | true => rw [Database.deposit_dup hdup]; exact h
  | false =>
    cases hc : aget cid db.clients with
    | some c0 =>
      cases hd : c0.deposit a with
      | error e => rw [Database.deposit_some_err hdup hc hd]; exact h
      | ok c1 =>
        rw [Database.deposit_some_ok hdup hc hd]
        obtain ⟨-, hc1⟩ := Client.deposit_ok hd
        exact aget_aset_forall h (by rw [hc1]; exact h cid c0 hc)
    | none =>
      cases hd : (Client.new cid).deposit a with
      | error e =>
        rw [Database.deposit_none_err hdup hc hd]
        exact aget_aset_forall h (le_refl 0)
      | ok c1 =>
        rw [Database.deposit_none_ok hdup hc hd]
        obtain ⟨-, hc1⟩ := Client.deposit_ok hd
        exact aget_aset_forall h (by rw [hc1]; exact le_refl 0)

theorem heldInv_withdraw {db : Database} {cid tid : Nat} {a : Amount}
    (h : HeldInv db) : HeldInv (db.withdraw cid tid a).2 := by
  cases hdup : (aget tid db.txs).isSome with
  | true => rw [Database.withdraw_dup hdup]; exact h
  | false =>
    cases hc : aget cid db.clients with
    | some c0 =>
      cases hd : c0.withdraw a with
      | error e => rw [Database.withdraw_some_err hdup hc hd]; exact h
      | ok c1 =>
        rw [Database.withdraw_some_ok hdup hc hd]
        obtain ⟨-, -, hc1⟩ := Client.withdraw_ok hd
        exact aget_aset_forall h (by rw [hc1]; exact h cid c0 hc)
    | none =>
      cases hd : (Client.new cid).withdraw a with
      | error e =>
        rw [Database.withdraw_none_err hdup hc hd]
        exact aget_aset_forall h (le_refl 0)
      | ok c1 =>
        rw [Database.withdraw_none_ok hdup hc hd]
        obtain ⟨-, -, hc1⟩ := Client.withdraw_ok hd
        exact aget_aset_forall h (by rw [hc1]; exact le_refl 0)

theorem heldInv_dispute {db : Database} {cid tid : Nat}
    (h : HeldInv db) : HeldInv (db.dispute cid tid).2 := by
  cases hc : aget cid db.clients with
  | none => rw [Database.dispute_noClient hc]; exact h
  | some c0 =>
    cases ht : aget tid db.txs with
    | none => rw [Database.dispute_noTx hc ht]; exact h
    | some tx =>
      by_cases hn : tx.amount < 0
      · rw [Database.dispute_neg hc ht hn]; exact h
      · cases hd : c0.hold tx.amount with
        | error e => rw [Database.dispute_err hc ht hn hd]; exact h
        | ok c1 =>
          rw [Database.dispute_ok hc ht hn hd]
          obtain ⟨ha, hc1⟩ := Client.hold_ok hd
          refine aget_aset_forall h ?_
          rw [hc1]
          exact add_nonneg (h cid c0 hc) ha

theorem heldInv_resolve {db : Database} {cid tid : Nat}
    (h : HeldInv db) : HeldInv (db.resolve cid tid).2 := by
  cases hc : aget cid db.clients with
  | none => rw [Database.resolve_noClient hc]; exact h
  | some c0 =>
    cases ht : aget tid db.txs with
    | none => rw [Database.resolve_noTx hc ht]; exact h
    | some tx =>
      by_cases hn : tx.amount < 0
      · rw [Database.resolve_neg hc ht hn]; exact h
      · cases hd : c0.release tx.amount with
        | error e => rw [Database.resolve_err hc ht hn hd]; exact h
        | ok c1 =>
          rw [Database.resolve_ok hc ht hn hd]
          obtain ⟨ha, hle, hc1⟩ := Client.release_ok hd
          refine aget_aset_forall h ?_
          rw [hc1]
          exact sub_nonneg.mpr hle

theorem heldInv_chargeback {db : Database} {cid tid : Nat}
    (h : HeldInv db) : HeldInv (db.chargeback cid tid).2 := by
  cases hc : aget cid db.clients with
  | none => rw [Database.chargeback_noClient hc]; exact h
  | some c0 =>
    cases ht : aget tid db.txs with
    | none => rw [Database.chargeback_noTx hc ht]; exact h
    | some tx =>
      by_cases hn : tx.amount < 0
      · rw [Database.chargeback_neg hc ht hn]; exact h
      · cases hd : c0.chargeback tx.amount with
        | error e => rw [Database.chargeback_err hc ht hn hd]; exact h
        | ok c1 =>
          rw [Database.chargeback_ok hc ht hn hd]
          obtain ⟨ha, hle, hc1⟩ := Client.chargeback_invert hd
          refine aget_aset_forall h ?_
          rw [hc1]
          exact sub_nonneg.mpr hle

theorem heldInv_applyRecord {db : Database} {r : Record}
    (h : HeldInv db) : HeldInv (db.applyRecord r).2 := by
  cases r with
  | deposit c t a => exact heldInv_deposit h
  | withdrawal c t a => exact heldInv_withdraw h
  | dispute c t => exact heldInv_dispute h
  | resolve c t => exact heldInv_resolve h
  | chargeback c t => exact heldInv_chargeback h

theorem heldInv_runRecords {db : Database} (rs : List Record)
    (h : HeldInv db) : HeldInv (db.runRecords rs) := by
  induction rs generalizing db with
  | nil => exact h
  | cons r rs ih => exact ih (heldInv_applyRecord h)

theorem heldInv_new : HeldInv Database.new := by
  intro k c hk
  cases hk

theorem availInv_deposit {db : Database} {cid tid : Nat} {a : Amount}
    (h : AvailInv db) : AvailInv (db.deposit cid tid a).2 := by
  cases hdup : (aget tid db.txs).isSome with
  | true => rw [Database.deposit_dup hdup]; exact h
  | false =>
    cases hc : aget cid db.clients with
    | some c0 =>
      cases hd : c0.deposit a with
      | error e => rw [Database.deposit_some_err hdup hc hd]; exact h
      | ok c1 =>
        rw [Database.deposit_some_ok hdup hc hd]
        obtain ⟨ha, hc1⟩ := Client.deposit_ok hd
        refine aget_aset_forall h ?_
        rw [hc1]
        exact add_nonneg (h cid c0 hc) ha
    | none =>
      cases hd : (Client.new cid).deposit a with
      | error e =>
        rw [Database.deposit_none_err hdup hc hd]
        exact aget_aset_forall h (le_refl 0)
      | ok c1 =>
        rw [Database.deposit_none_ok hdup hc hd]
        obtain ⟨ha, hc1⟩ := Client.deposit_ok hd
        refine aget_aset_forall h ?_
        rw [hc1]
        simpa [Client.new] using ha

theorem availInv_withdraw {db : Database} {cid tid : Nat} {a : Amount}
    (h : AvailInv db) : AvailInv (db.withdraw cid tid a).2 := by
  cases hdup : (aget tid db.txs).isSome with
  | true => rw [Database.withdraw_dup hdup]; exact h
  | false =>
    cases hc : aget cid db.clients with
    | some c0 =>
      cases hd : c0.withdraw a with
      | error e => rw [Database.withdraw_some_err hdup hc hd]; exact h
      | ok c1 =>
        rw [Database.withdraw_some_ok hdup hc hd]
        obtain ⟨-, hle, hc1⟩ := Client.withdraw_ok hd
        refine aget_aset_forall h ?_
        rw [hc1]
        exact sub_nonneg.mpr hle
    | none =>
      cases hd : (Client.new cid).withdraw a with
      | error e =>
        rw [Database.withdraw_none_err hdup hc hd]
        exact aget_aset_forall h (le_refl 0)
      | ok c1 =>
        rw [Database.withdraw_none_ok hdup hc hd]
        obtain ⟨-, hle, hc1⟩ := Client.withdraw_ok hd
        refine aget_aset_forall h ?_
        rw [hc1]
        exact sub_nonneg.mpr hle

theorem availInv_resolve {db : Database} {cid tid : Nat}
    (h : AvailInv db) : AvailInv (db.resolve cid tid).2 := by
  cases hc : aget cid db.clients with
  | none => rw [Database.resolve_noClient hc]; exact h
  | some c0 =>
    cases ht : aget tid db.txs with
    | none => rw [Database.resolve_noTx hc ht]; exact h
    | some tx =>
      by_cases hn : tx.amount < 0
      · rw [Database.resolve_neg hc ht hn]; exact h
      · cases hd : c0.release tx.amount with
        | error e => rw [Database.resolve_err hc ht hn hd]; exact h
        | ok c1 =>
          rw [Database.resolve_ok hc ht hn hd]
          obtain ⟨ha, -, hc1⟩ := Client.release_ok hd
          refine aget_aset_forall h ?_
          rw [hc1]
          exact add_nonneg (h cid c0 hc) ha

theorem availInv_chargeback {db : Database} {cid tid : Nat}
    (h : AvailInv db) : AvailInv (db.chargeback cid tid).2 := by
  cases hc : aget cid db.clients with
  | none => rw [Database.chargeback_noClient hc]; exact h
  | some c0 =>
    cases ht : aget tid db.txs with
    | none => rw [Database.chargeback_noTx hc ht]; exact h
    | some tx =>
      by_cases hn : tx.amount < 0
      · rw [Database.chargeback_neg hc ht hn]; exact h
      · cases hd : c0.chargeback tx.amount with
        | error e => rw [Database.chargeback_err hc ht hn hd]; exact h
        | ok c1 =>
          rw [Database.chargeback_ok hc ht hn hd]
          obtain ⟨-, -, hc1⟩ := Client.chargeback_invert hd
          refine aget_aset_forall h ?_
          rw [hc1]
          exact h cid c0 hc

theorem availInv_applyRecord {db : Database} {r : Record}
    (h : AvailInv db) (hr : r.isDispute = false) : AvailInv (db.applyRecord r).2 := by
  cases r with
  | deposit c t a => exact availInv_deposit h
  | withdrawal c t a => exact availInv_withdraw h
  | dispute c t => cases hr
  | resolve c t => exact availInv_resolve h
  | chargeback c t => exact availInv_chargeback h

theorem availInv_runRecords {db : Database} (rs : List Record)
    (h : AvailInv db) (hr : hasDispute rs = false) : AvailInv (db.runRecords rs) := by
  induction rs generalizing db with
  | nil => exact h
  | cons r rs ih =>
    have h1 : r.isDispute = false ∧ hasDispute rs = false := by
      cases r <;> simp_all [hasDispute, Record.isDispute]
    exact ih (availInv_applyRecord h h1.1) h1.2

theorem availInv_new : AvailInv Database.new := by
  intro k c hk
  cases hk

/-! ### The transaction table is append-only -/

theorem Database.dispute_txs (db : Database) (cid tid : Nat) :
    (db.dispute cid tid).2.txs = db.txs := by
  unfold Database.dispute
  repeat' split
  all_goals rfl

theorem Database.resolve_txs (db : Database) (cid tid : Nat) :
    (db.resolve cid tid).2.txs = db.txs := by
  unfold Database.resolve
  repeat' split
  all_goals rfl

theorem Database.chargeback_txs (db : Database) (cid tid : Nat) :
    (db.chargeback cid tid).2.txs = db.txs := by
  unfold Database.chargeback
  repeat' split
  all_goals rfl

theorem txs_persist_deposit {db : Database} {cid tid : Nat} {a : Amount} {t : Nat}
    {v : Tx} (h : aget t db.txs = some v) :
    aget t (db.deposit cid tid a).2.txs = some v := by
  cases hdup : (aget tid db.txs).isSome with
  | true => rw [Database.deposit_dup hdup]; exact h
  | false =>
    have htne : ¬ tid = t := by
      intro he
      rw [he, h] at hdup
      simp at hdup
    cases hc : aget cid db.clients with
    | some c0 =>
      cases hd : c0.deposit a with
      | error e => rw [Database.deposit_some_err hdup hc hd]; exact h
      | ok c1 =>
        rw [Database.deposit_some_ok hdup hc hd]
        show aget t (aset tid _ db.txs) = some v
        rw [aget_aset, if_neg htne]
        exact h
    | none =>
      cases hd : (Client.new cid).deposit a with
      | error e => rw [Database.deposit_none_err hdup hc hd]; exact h
      | ok c1 =>
        rw [Database.deposit_none_ok hdup hc hd]
        show aget t (aset tid _ db.txs) = some v
        rw [aget_aset, if_neg htne]
        exact h

theorem txs_persist_withdraw {db : Database} {cid tid : Nat} {a : Amount} {t : Nat}
    {v : Tx} (h : aget t db.txs = some v) :
    aget t (db.withdraw cid tid a).2.txs = some v := by
  cases hdup : (aget tid db.txs).isSome with
  | true => rw [Database.withdraw_dup hdup]; exact h
  | false =>
    have htne : ¬ tid = t := by
      intro he
      rw [he, h] at hdup
      simp at hdup
    cases hc : aget cid db.clients with
    | some c0 =>
      cases hd : c0.withdraw a with
      | error e => rw [Database.withdraw_some_err hdup hc hd]; exact h
      | ok c1 =>
        rw [Database.withdraw_some_ok hdup hc hd]
        show aget t (aset tid _ db.txs) = some v
        rw [aget_aset, if_neg htne]
        exact h
    | none =>
      cases hd : (Client.new cid).withdraw a with
      | error e => rw [Database.withdraw_none_err hdup hc hd]; exact h
      | ok c1 =>
        rw [Database.withdraw_none_ok hdup hc hd]
        show aget t (aset tid _ db.txs) = some v
        rw [aget_aset, if_neg htne]
        exact h

theorem txs_persist_applyRecord {db : Database} {r : Record} {t : Nat} {v : Tx}
    (h : aget t db.txs = some v) : aget t (db.applyRecord r).2.txs = some v := by
  cases r with
  | deposit c tid a => exact txs_persist_deposit h
  | withdrawal c tid a => exact txs_persist_withdraw h
  | dispute c tid => rw [Database.applyRecord, Database.dispute_txs]; exact h
  | resolve c tid => rw [Database.applyRecord, Database.resolve_txs]; exact h
  | chargeback c tid => rw [Database.applyRecord, Database.chargeback_txs]; exact h

theorem txs_persist_runRecords {db : Database} (rs : List Record) {t : Nat} {v : Tx}
    (h : aget t db.txs = some v) : aget t (db.runRecords rs).txs = some v := by
  induction rs generalizing db with
  | nil => exact h
  | cons r rs ih => exact ih (txs_persist_applyRecord h)

/-! ### Once locked, a client stays locked -/

theorem locked_aset {m : List (Nat × Client)} {k0 : Nat} {c0 c1 : Client} {cid : Nat}
    (hc : aget k0 m = some c0) (hl : c0.locked = true → c1.locked = true)
    (h : ((aget cid m).map Client.locked).getD false = true) :
    ((aget cid (aset k0 c1 m)).map Client.locked).getD false = true := by
  rw [aget_aset]
  split_ifs with he
  · subst he
    rw [hc] at h
    simp only [Option.map_some', Option.getD_some] at h
    simp [hl h]
  · exact h

theorem locked_aset_none {m : List (Nat × Client)} {k0 : Nat} {c1 : Client} {cid : Nat}
    (hc : aget k0 m = none)
    (h : ((aget cid m).map Client.locked).getD false = true) :
    ((aget cid (aset k0 c1 m)).map Client.locked).getD false = true := by
  rw [aget_aset]
  split_ifs with he
  · subst he
    rw [hc] at h
    simp at h
  · exact h

theorem lockedOf_deposit {db : Database} {cid0 tid : Nat} {a : Amount} {cid : Nat}
    (h : lockedOf db cid = true) : lockedOf (db.deposit cid0 tid a).2 cid = true := by
  unfold lockedOf at h ⊢
  cases hdup : (aget tid db.txs).isSome with
  | true => rw [Database.deposit_dup hdup]; exact h
  | false =>
    cases hc : aget cid0 db.clients with
    | some c0 =>
      cases hd : c0.deposit a with
      | error e => rw [Database.deposit_some_err hdup hc hd]; exact h
      | ok c1 =>
        rw [Database.deposit_some_ok hdup hc hd]
        obtain ⟨-, hc1⟩ := Client.deposit_ok hd
        exact locked_aset hc (by rw [hc1]; exact id) h
    | none =>
      cases hd : (Client.new cid0).deposit a with
      | error e =>
        rw [Database.deposit_none_err hdup hc hd]
        exact locked_aset_none hc h
      | ok c1 =>
        rw [Database.deposit_none_ok hdup hc hd]
        exact locked_aset_none hc h

theorem lockedOf_withdraw {db : Database} {cid0 tid : Nat} {a : Amount} {cid : Nat}
    (h : lockedOf db cid = true) : lockedOf (db.withdraw cid0 tid a).2 cid = true := by
  unfold lockedOf at h ⊢
  cases hdup : (aget tid db.txs).isSome with
  | true => rw [Database.withdraw_dup hdup]; exact h
  | false =>
    cases hc : aget cid0 db.clients with
    | some c0 =>
      cases hd : c0.withdraw a with
      | error e => rw [Database.withdraw_some_err hdup hc hd]; exact h
      | ok c1 =>
        rw [Database.withdraw_some_ok hdup hc hd]
        obtain ⟨-, -, hc1⟩ := Client.withdraw_ok hd
        exact locked_aset hc (by rw [hc1]; exact id) h
    | none =>
      cases hd : (Client.new cid0).withdraw a with
      | error e =>
        rw [Database.withdraw_none_err hdup hc hd]
        exact locked_aset_none hc h
      | ok c1 =>
        rw [Database.withdraw_none_ok hdup hc hd]
        exact locked_aset_none hc h

theorem lockedOf_dispute {db : Database} {cid0 tid : Nat} {cid : Nat}
    (h : lockedOf db cid = true) : lockedOf (db.dispute cid0 tid).2 cid = true := by
  unfold lockedOf at h ⊢
  cases hc : aget cid0 db.clients with
  | none => rw [Database.dispute_noClient hc]; exact h
  | some c0 =>
    cases ht : aget tid db.txs with
    | none => rw [Database.dispute_noTx hc ht]; exact h
    | some tx =>
      by_cases hn : tx.amount < 0
      · rw [Database.dispute_neg hc ht hn]; exact h
      · cases hd : c0.hold tx.amount with
        | error e => rw [Database.dispute_err hc ht hn hd]; exact h
        | ok c1 =>
          rw [Database.dispute_ok hc ht hn hd]
          obtain ⟨-, hc1⟩ := Client.hold_ok hd
          exact locked_aset hc (by rw [hc1]; exact id) h

theorem lockedOf_resolve {db : Database} {cid0 tid : Nat} {cid : Nat}
    (h : lockedOf db cid = true) : lockedOf (db.resolve cid0 tid).2 cid = true := by
  unfold lockedOf at h ⊢
  cases hc : aget cid0 db.clients with
  | none => rw [Database.resolve_noClient hc]; exact h
  | some c0 =>
    cases ht : aget tid db.txs with
    | none => rw [Database.resolve_noTx hc ht]; exact h
    | some tx =>
      by_cases hn : tx.amount < 0
      · rw [Database.resolve_neg hc ht hn]; exact h
      · cases hd : c0.release tx.amount with
        | error e => rw [Database.resolve_err hc ht hn hd]; exact h
        | ok c1 =>
          rw [Database.resolve_ok hc ht hn hd]
          obtain ⟨-, -, hc1⟩ := Client.release_ok hd
          exact locked_aset hc (by rw [hc1]; exact id) h

theorem lockedOf_chargeback {db : Database} {cid0 tid : Nat} {cid : Nat}
    (h : lockedOf db cid = true) : lockedOf (db.chargeback cid0 tid).2 cid = true := by
  unfold lockedOf at h ⊢
  cases hc : aget cid0 db.clients with
  | none => rw [Database.chargeback_noClient hc]; exact h
  | some c0 =>
    cases ht : aget tid db.txs with
    | none => rw [Database.chargeback_noTx hc ht]; exact h
    | some tx =>
      by_cases hn : tx.amount < 0
      · rw [Database.chargeback_neg hc ht hn]; exact h
      · cases hd : c0.chargeback tx.amount with
        | error e => rw [Database.chargeback_err hc ht hn hd]; exact h
        | ok c1 =>
          rw [Database.chargeback_ok hc ht hn hd]
          obtain ⟨-, -, hc1⟩ := Client.chargeback_invert hd
          exact locked_aset hc (fun _ => by rw [hc1]) h

theorem lockedOf_applyRecord {db : Database} {r : Record} {cid : Nat}
    (h : lockedOf db cid = true) : lockedOf (db.applyRecord r).2 cid = true := by
  cases r with
  | deposit c t a => exact lockedOf_deposit h
  | withdrawal c t a => exact lockedOf_withdraw h
  | dispute c t => exact lockedOf_dispute h
  | resolve c t => exact lockedOf_resolve h
  | chargeback c t => exact lockedOf_chargeback h

theorem lockedOf_runRecords {db : Database} (rs : List Record) {cid : Nat}
    (h : lockedOf db cid = true) : lockedOf (db.runRecords rs) cid = true := by
  induction rs generalizing db with
  | nil => exact h
  | cons r rs ih => exact ih (lockedOf_applyRecord h)

/-! ### What a failed operation can change -/

theorem Database.dispute_fail {db : Database} {cid tid : Nat} {e : LedgerError}
    (h : (db.dispute cid tid).1 = some e) : (db.dispute cid tid).2 = db := by
  cases hc : aget cid db.clients with
  | none => rw [Database.dispute_noClient hc]
  | some c0 =>
    cases ht : aget tid db.txs with
    | none => rw [Database.dispute_noTx hc ht]
    | some tx =>
      by_cases hn : tx.amount < 0
      · rw [Database.dispute_neg hc ht hn]
      · cases hd : c0.hold tx.amount with
        | error e0 => rw [Database.dispute_err hc ht hn hd]
        | ok c1 =>
          rw [Database.dispute_ok hc ht hn hd] at h
          cases h

theorem Database.resolve_fail {db : Database} {cid tid : Nat} {e : LedgerError}
    (h : (db.resolve cid tid).1 = some e) : (db.resolve cid tid).2 = db := by
  cases hc : aget cid db.clients with
  | none => rw [Database.resolve_noClient hc]
  | some c0 =>
    cases ht : aget tid db.txs with
    | none => rw [Database.resolve_noTx hc ht]
    | some tx =>
      by_cases hn : tx.amount < 0
      · rw [Database.resolve_neg hc ht hn]
      · cases hd : c0.release tx.amount with
        | error e0 => rw [Database.resolve_err hc ht hn hd]
        | ok c1 =>
          rw [Database.resolve_ok hc ht hn hd] at h
          cases h

theorem Database.chargeback_fail {db : Database} {cid tid : Nat} {e : LedgerError}
    (h : (db.chargeback cid tid).1 = some e) : (db.chargeback cid tid).2 = db := by
  cases hc : aget cid db.clients with
  | none => rw [Database.chargeback_noClient hc]
  | some c0 =>
    cases ht : aget tid db.txs with
    | none => rw [Database.chargeback_noTx hc ht]
    | some tx =>
      by_cases hn : tx.amount < 0
      · rw [Database.chargeback_neg hc ht hn]
      · cases hd : c0.chargeback tx.amount with
        | error e0 => rw [Database.chargeback_err hc ht hn hd]
        | ok c1 =>
          rw [Database.chargeback_ok hc ht hn hd] at h
          cases h

theorem Database.deposit_fail {db : Database} {cid0 tid : Nat} {a : Amount}
    {e : LedgerError} (h : (db.deposit cid0 tid a).1 = some e) (cid : Nat) :
    (db.deposit cid0 tid a).2.txs = db.txs ∧
    (aget cid (db.deposit cid0 tid a).2.clients = aget cid db.clients ∨
     (aget cid db.clients = none ∧
      aget cid (db.deposit cid0 tid a).2.clients = some (Client.new cid))) := by
  cases hdup : (aget tid db.txs).isSome with
  | true => rw [Database.deposit_dup hdup]; exact ⟨rfl, Or.inl rfl⟩
  | false =>
    cases hc : aget cid0 db.clients with
    | some c0 =>
      cases hd : c0.deposit a with
      | error e0 => rw [Database.deposit_some_err hdup hc hd]; exact ⟨rfl, Or.inl rfl⟩
      | ok c1 =>
        rw [Database.deposit_some_ok hdup hc hd] at h
        cases h
    | none =>
      cases hd : (Client.new cid0).deposit a with
      | error e0 =>
        rw [Database.deposit_none_err hdup hc hd]
        refine ⟨rfl, ?_⟩
        show aget cid (aset cid0 (Client.new cid0) db.clients) = _ ∨ _
        rw [aget_aset]
        split_ifs with he
        · subst he
          exact Or.inr ⟨hc, rfl⟩
        · exact Or.inl rfl
      | ok c1 =>
        rw [Database.deposit_none_ok hdup hc hd] at h
        cases h

theorem Database.withdraw_fail {db : Database} {cid0 tid : Nat} {a : Amount}
    {e : LedgerError} (h : (db.withdraw cid0 tid a).1 = some e) (cid : Nat) :
    (db.withdraw cid0 tid a).2.txs = db.txs ∧
    (aget cid (db.withdraw cid0 tid a).2.clients = aget cid db.clients ∨
     (aget cid db.clients = none ∧
      aget cid (db.withdraw cid0 tid a).2.clients = some (Client.new cid))) := by
  cases hdup : (aget tid db.txs).isSome with
  | true => rw [Database.withdraw_dup hdup]; exact ⟨rfl, Or.inl rfl⟩
  | false =>
    cases hc : aget cid0 db.clients with
    | some c0 =>
      cases hd : c0.withdraw a with
      | error e0 => rw [Database.withdraw_some_err hdup hc hd]; exact ⟨rfl, Or.inl rfl⟩
      | ok c1 =>
        rw [Database.withdraw_some_ok hdup hc hd] at h
        cases h
    | none =>
      cases hd : (Client.new cid0).withdraw a with
      | error e0 =>
        rw [Database.withdraw_none_err hdup hc hd]
        refine ⟨rfl, ?_⟩
        show aget cid (aset cid0 (Client.new cid0) db.clients) = _ ∨ _
        rw [aget_aset]
        split_ifs with he
        · subst he
          exact Or.inr ⟨hc, rfl⟩
        · exact Or.inl rfl
      | ok c1 =>
        rw [Database.withdraw_none_ok hdup hc hd] at h
        cases h

/-! ### The locked flag is never inspected: lock-blind simulation -/

/-- The lock-blind view of a client: id, available and held. -/
def Client.ahView (c : Client) : Nat × Amount × Amount := (c.id, c.available, c.held)

/-- Two client tables agree except possibly on locked flags. -/
def MapAH (m1 m2 : List (Nat × Client)) : Prop :=
  ∀ k, (aget k m1).map Client.ahView = (aget k m2).map Client.ahView

theorem Client.ahView_eq {c c' : Client} (h : c.ahView = c'.ahView) :
    c.id = c'.id ∧ c.available = c'.available ∧ c.held = c'.held := by
  unfold Client.ahView at h
  simpa [Prod.ext_iff] using h

theorem MapAH_some {m1 m2 : List (Nat × Client)} {cid : Nat} {c : Client}
    (h : MapAH m1 m2) (hc : aget cid m1 = some c) :
    ∃ c', aget cid m2 = some c' ∧ c.ahView = c'.ahView := by
  have h1 := h cid
  rw [hc] at h1
  cases h2 : aget cid m2 with
  | none => rw [h2] at h1; cases h1
  | some c' =>
    rw [h2] at h1
    simp only [Option.map_some', Option.some.injEq] at h1
    exact ⟨c', rfl, h1⟩

theorem MapAH_none {m1 m2 : List (Nat × Client)} {cid : Nat}
    (h : MapAH m1 m2) (hc : aget cid m1 = none) : aget cid m2 = none := by
  have h1 := h cid
  rw [hc] at h1
  cases h2 : aget cid m2 with
  | none => rfl
  | some c' => rw [h2] at h1; cases h1

theorem MapAH_aset {m1 m2 : List (Nat × Client)} {k0 : Nat} {c1 c2 : Client}
    (h : MapAH m1 m2) (hv : c1.ahView = c2.ahView) :
    MapAH (aset k0 c1 m1) (aset k0 c2 m2) := by
  intro k
  rw [aget_aset, aget_aset]
  split_ifs
  · simp [hv]
  · exact h k

theorem Client.deposit_congr {c c' : Client} (a : Amount) (h : c.ahView = c'.ahView) :
    (c.deposit a).map Client.ahView = (c'.deposit a).map Client.ahView := by
  obtain ⟨h1, h2, h3⟩ := Client.ahView_eq h
  unfold Client.deposit
  split_ifs
  · rfl
  · simp [Except.map, Client.ahView, h1, h2, h3]

theorem Client.withdraw_congr {c c' : Client} (a : Amount) (h : c.ahView = c'.ahView) :
    (c.withdraw a).map Client.ahView = (c'.withdraw a).map Client.ahView := by
  obtain ⟨h1, h2, h3⟩ := Client.ahView_eq h
  unfold Client.withdraw
  rw [h2]
  split_ifs
  · rfl
  · rfl
  · simp [Except.map, Client.ahView, h1, h3]

theorem Client.hold_congr {c c' : Client} (a : Amount) (h : c.ahView = c'.ahView) :
    (c.hold a).map Client.ahView = (c'.hold a).map Client.ahView := by
  obtain ⟨h1, h2, h3⟩ := Client.ahView_eq h
  unfold Client.hold
  split_ifs
  · rfl
  · simp [Except.map, Client.ahView, h1, h2, h3]

theorem Client.release_congr {c c' : Client} (a : Amount) (h : c.ahView = c'.ahView) :
    (c.release a).map Client.ahView = (c'.release a).map Client.ahView := by
  obtain ⟨h1, h2, h3⟩ := Client.ahView_eq h
  unfold Client.release
  rw [h3]
  split_ifs
  · rfl
  · rfl
  · simp [Except.map, Client.ahView, h1, h2]

theorem Client.chargeback_congr {c c' : Client} (a : Amount) (h : c.ahView = c'.ahView) :
    (c.chargeback a).map Client.ahView = (c'.chargeback a).map Client.ahView := by
  obtain ⟨h1, h2, h3⟩ := Client.ahView_eq h
  unfold Client.chargeback
  rw [h3]
  split_ifs
  · rfl
  · rfl
  · simp [Except.map, Client.ahView, h1, h2]

theorem except_congr_ok {x y : Except LedgerError Client} {c1 : Client}
    (h : x.map Client.ahView = y.map Client.ahView) (hx : x = .ok c1) :
    ∃ c2, y = .ok c2 ∧ c1.ahView = c2.ahView := by
  subst hx
  cases hy : y with
  | error e => rw [hy] at h; cases h
  | ok c2 =>
    rw [hy] at h
    simp only [Except.map, Except.ok.injEq] at h
    exact ⟨c2, rfl, h⟩

theorem except_congr_err {x y : Except LedgerError Client} {e : LedgerError}
    (h : x.map Client.ahView = y.map Client.ahView) (hx : x = .error e) :
    y = .error e := by
  subst hx
  cases hy : y with
  | error e2 =>
    rw [hy] at h
    simp only [Except.map, Except.error.injEq] at h
    rw [h]
  | ok c2 => rw [hy] at h; cases h

theorem sim_deposit {db1 db2 : Database} (ht : db1.txs = db2.txs)
    (hm : MapAH db1.clients db2.clients) (cid tid : Nat) (a : Amount) :
    (db1.deposit cid tid a).1 = (db2.deposit cid tid a).1 ∧
    (db1.deposit cid tid a).2.txs = (db2.deposit cid tid a).2.txs ∧
    MapAH (db1.deposit cid tid a).2.clients (db2.deposit cid tid a).2.clients := by
  cases hdup : (aget tid db1.txs).isSome with
  | true =>
    have hdup2 : (aget tid db2.txs).isSome = true := ht ▸ hdup
    rw [Database.deposit_dup hdup, Database.deposit_dup hdup2]
    exact ⟨rfl, ht, hm⟩
  | false =>
    have hdup2 : (aget tid db2.txs).isSome = false := ht ▸ hdup
    cases hc1 : aget cid db1.clients with
    | some c0 =>
      obtain ⟨c0', hc2, hv⟩ := MapAH_some hm hc1
      have hcong := Client.deposit_congr a hv
      cases hd1 : c0.deposit a with
      | error e =>
        have hd2 := except_congr_err hcong hd1
        rw [Database.deposit_some_err hdup hc1 hd1,
            Database.deposit_some_err hdup2 hc2 hd2]
        exact ⟨rfl, ht, hm⟩
      | ok c1 =>
        obtain ⟨c1', hd2, hv1⟩ := except_congr_ok hcong hd1
        rw [Database.deposit_some_ok hdup hc1 hd1,
            Database.deposit_some_ok hdup2 hc2 hd2]
        refine ⟨rfl, ?_, MapAH_aset hm hv1⟩
        show aset tid _ db1.txs = aset tid _ db2.txs
        rw [ht]
    | none =>
      have hc2 := MapAH_none hm hc1
      cases hd1 : (Client.new cid).deposit a with
      | error e =>
        rw [Database.deposit_none_err hdup hc1 hd1,
            Database.deposit_none_err hdup2 hc2 hd1]
        exact ⟨rfl, ht, MapAH_aset hm rfl⟩
      | ok c1 =>
        rw [Database.deposit_none_ok hdup hc1 hd1,
            Database.deposit_none_ok hdup2 hc2 hd1]
        refine ⟨rfl, ?_, MapAH_aset hm rfl⟩
        show aset tid _ db1.txs = aset tid _ db2.txs
        rw [ht]

theorem sim_withdraw {db1 db2 : Database} (ht : db1.txs = db2.txs)
    (hm : MapAH db1.clients db2.clients) (cid tid : Nat) (a : Amount) :
    (db1.withdraw cid tid a).1 = (db2.withdraw cid tid a).1 ∧
    (db1.withdraw cid tid a).2.txs = (db2.withdraw cid tid a).2.txs ∧
    MapAH (db1.withdraw cid tid a).2.clients (db2.withdraw cid tid a).2.clients := by
  cases hdup : (aget tid db1.txs).isSome with
  | true =>
    have hdup2 : (aget tid db2.txs).isSome = true := ht ▸ hdup
    rw [Database.withdraw_dup hdup, Database.withdraw_dup hdup2]
    exact ⟨rfl, ht, hm⟩
  | false =>
    have hdup2 : (aget tid db2.txs).isSome = false := ht ▸ hdup
    cases hc1 : aget cid db1.clients with
    | some c0 =>
      obtain ⟨c0', hc2, hv⟩ := MapAH_some hm hc1
      have hcong := Client.withdraw_congr a hv
      cases hd1 : c0.withdraw a with
      | error e =>
        have hd2 := except_congr_err hcong hd1
        rw [Database.withdraw_some_err hdup hc1 hd1,
            Database.withdraw_some_err hdup2 hc2 hd2]
        exact ⟨rfl, ht, hm⟩
      | ok c1 =>
        obtain ⟨c1', hd2, hv1⟩ := except_congr_ok hcong hd1
        rw [Database.withdraw_some_ok hdup hc1 hd1,
            Database.withdraw_some_ok hdup2 hc2 hd2]
        refine ⟨rfl, ?_, MapAH_aset hm hv1⟩
        show aset tid _ db1.txs = aset tid _ db2.txs
        rw [ht]
    | none =>
      have hc2 := MapAH_none hm hc1
      cases hd1 : (Client.new cid).withdraw a with
      | error e =>
        rw [Database.withdraw_none_err hdup hc1 hd1,
            Database.withdraw_none_err hdup2 hc2 hd1]
        exact ⟨rfl, ht, MapAH_aset hm rfl⟩
      | ok c1 =>
        rw [Database.withdraw_none_ok hdup hc1 hd1,
            Database.withdraw_none_ok hdup2 hc2 hd1]
        refine ⟨rfl, ?_, MapAH_aset hm rfl⟩
        show aset tid _ db1.txs = aset tid _ db2.txs
        rw [ht]

theorem sim_dispute {db1 db2 : Database} (ht : db1.txs = db2.txs)
    (hm : MapAH db1.clients db2.clients) (cid tid : Nat) :
    (db1.dispute cid tid).1 = (db2.dispute cid tid).1 ∧
    (db1.dispute cid tid).2.txs = (db2.dispute cid tid).2.txs ∧
    MapAH (db1.dispute cid tid).2.clients (db2.dispute cid tid).2.clients := by
  cases hc1 : aget cid db1.clients with
  | none =>
    have hc2 := MapAH_none hm hc1
    rw [Database.dispute_noClient hc1, Database.dispute_noClient hc2]
    exact ⟨rfl, ht, hm⟩
  | some c0 =>
    obtain ⟨c0', hc2, hv⟩ := MapAH_some hm hc1
    cases ht1 : aget tid db1.txs with
    | none =>
      have ht2 : aget tid db2.txs = none := ht ▸ ht1
      rw [Database.dispute_noTx hc1 ht1, Database.dispute_noTx hc2 ht2]
      exact ⟨rfl, ht, hm⟩
    | some tx =>
      have ht2 : aget tid db2.txs = some tx := ht ▸ ht1
      by_cases hn : tx.amount < 0
      · rw [Database.dispute_neg hc1 ht1 hn, Database.dispute_neg hc2 ht2 hn]
        exact ⟨rfl, ht, hm⟩
      · have hcong := Client.hold_congr tx.amount hv
        cases hd1 : c0.hold tx.amount with
        | error e =>
          have hd2 := except_congr_err hcong hd1
          rw [Database.dispute_err hc1 ht1 hn hd1, Database.dispute_err hc2 ht2 hn hd2]
          exact ⟨rfl, ht, hm⟩
        | ok c1 =>
          obtain ⟨c1', hd2, hv1⟩ := except_congr_ok hcong hd1
          rw [Database.dispute_ok hc1 ht1 hn hd1, Database.dispute_ok hc2 ht2 hn hd2]
          exact ⟨rfl, ht, MapAH_aset hm hv1⟩

theorem sim_resolve {db1 db2 : Database} (ht : db1.txs = db2.txs)
    (hm : MapAH db1.clients db2.clients) (cid tid : Nat) :
    (db1.resolve cid tid).1 = (db2.resolve cid tid).1 ∧
    (db1.resolve cid tid).2.txs = (db2.resolve cid tid).2.txs ∧
    MapAH (db1.resolve cid tid).2.clients (db2.resolve cid tid).2.clients := by
  cases hc1 : aget cid db1.clients with
  | none =>
    have hc2 := MapAH_none hm hc1
    rw [Database.resolve_noClient hc1, Database.resolve_noClient hc2]
    exact ⟨rfl, ht, hm⟩
  | some c0 =>
    obtain ⟨c0', hc2, hv⟩ := MapAH_some hm hc1
    cases ht1 : aget tid db1.txs with
    | none =>
      have ht2 : aget tid db2.txs = none := ht ▸ ht1
      rw [Database.resolve_noTx hc1 ht1, Database.resolve_noTx hc2 ht2]
      exact ⟨rfl, ht, hm⟩
    | some tx =>
      have ht2 : aget tid db2.txs = some tx := ht ▸ ht1
      by_cases hn : tx.amount < 0
      · rw [Database.resolve_neg hc1 ht1 hn, Database.resolve_neg hc2 ht2 hn]
        exact ⟨rfl, ht, hm⟩
      · have hcong := Client.release_congr tx.amount hv
        cases hd1 : c0.release tx.amount with
        | error e =>
          have hd2 := except_congr_err hcong hd1
          rw [Database.resolve_err hc1 ht1 hn hd1, Database.resolve_err hc2 ht2 hn hd2]
          exact ⟨rfl, ht, hm⟩
        | ok c1 =>
          obtain ⟨c1', hd2, hv1⟩ := except_congr_ok hcong hd1
          rw [Database.resolve_ok hc1 ht1 hn hd1, Database.resolve_ok hc2 ht2 hn hd2]
          exact ⟨rfl, ht, MapAH_aset hm hv1⟩

theorem sim_chargeback {db1 db2 : Database} (ht : db1.txs = db2.txs)
    (hm : MapAH db1.clients db2.clients) (cid tid : Nat) :
    (db1.chargeback cid tid).1 = (db2.chargeback cid tid).1 ∧
    (db1.chargeback cid tid).2.txs = (db2.chargeback cid tid).2.txs ∧
    MapAH (db1.chargeback cid tid).2.clients (db2.chargeback cid tid).2.clients := by
  cases hc1 : aget cid db1.clients with
  | none =>
    have hc2 := MapAH_none hm hc1
    rw [Database.chargeback_noClient hc1, Database.chargeback_noClient hc2]
    exact ⟨rfl, ht, hm⟩
  | some c0 =>
    obtain ⟨c0', hc2, hv⟩ := MapAH_some hm hc1
    cases ht1 : aget tid db1.txs with
    | none =>
      have ht2 : aget tid db2.txs = none := ht ▸ ht1
      rw [Database.chargeback_noTx hc1 ht1, Database.chargeback_noTx hc2 ht2]
      exact ⟨rfl, ht, hm⟩
    | some tx =>
      have ht2 : aget tid db2.txs = some tx := ht ▸ ht1
      by_cases hn : tx.amount < 0
      · rw [Database.chargeback_neg hc1 ht1 hn, Database.chargeback_neg hc2 ht2 hn]
        exact ⟨rfl, ht, hm⟩
      · have hcong := Client.chargeback_congr tx.amount hv
        cases hd1 : c0.chargeback tx.amount with
        | error e =>
          have hd2 := except_congr_err hcong hd1
          rw [Database.chargeback_err hc1 ht1 hn hd1,
              Database.chargeback_err hc2 ht2 hn hd2]
          exact ⟨rfl, ht, hm⟩
        | ok c1 =>
          obtain ⟨c1', hd2, hv1⟩ := except_congr_ok hcong hd1
          rw [Database.chargeback_ok hc1 ht1 hn hd1,
              Database.chargeback_ok hc2 ht2 hn hd2]
          exact ⟨rfl, ht, MapAH_aset hm hv1⟩

theorem sim_applyRecord {db1 db2 : Database} (ht : db1.txs = db2.txs)
    (hm : MapAH db1.clients db2.clients) (r : Record) :
    (db1.applyRecord r).1 = (db2.applyRecord r).1 ∧
    (db1.applyRecord r).2.txs = (db2.applyRecord r).2.txs ∧
    MapAH (db1.applyRecord r).2.clients (db2.applyRecord r).2.clients := by
  cases r with
  | deposit c t a => exact sim_deposit ht hm c t a
  | withdrawal c t a => exact sim_withdraw ht hm c t a
  | dispute c t => exact sim_dispute ht hm c t
  | resolve c t => exact sim_resolve ht hm c t
  | chargeback c t => exact sim_chargeback ht hm c t

/-- Overwrite the locked flag of one client, if present (all other fields and
clients untouched). -/
def setLocked (db : Database) (cid : ClientId) (b : Bool) : Database :=
  match aget cid db.clients with
  | some c => { db with clients := aset cid { c with locked := b } db.clients }
  | none => db

theorem setLocked_txs (db : Database) (cid : ClientId) (b : Bool) :
    (setLocked db cid b).txs = db.txs := by
  unfold setLocked
  cases aget cid db.clients <;> rfl

theorem setLocked_mapAH (db : Database) (cid : ClientId) (b : Bool) :
    MapAH db.clients (setLocked db cid b).clients := by
  unfold setLocked
  cases hc : aget cid db.clients with
  | none => exact fun k => rfl
  | some c =>
    intro k
    show _ = (aget k (aset cid _ db.clients)).map _
    rw [aget_aset]
    split_ifs with he
    · subst he
      rw [hc]
      rfl
    · rfl

/-! ### Inversion of successful operations -/

theorem Database.dispute_ok_inv {db : Database} {cid tid : Nat}
    (h : (db.dispute cid tid).1 = none) :
    ∃ c0 tx, aget cid db.clients = some c0 ∧ aget tid db.txs = some tx ∧
      0 ≤ tx.amount ∧
      (db.dispute cid tid).2 =
        { db with clients := aset cid { c0 with available := c0.available - tx.amount, held := c0.held + tx.amount } db.clients } := by
  cases hc : aget cid db.clients with
  | none => rw [Database.dispute_noClient hc] at h; cases h
  | some c0 =>
    cases ht : aget tid db.txs with
    | none => rw [Database.dispute_noTx hc ht] at h; cases h
    | some tx =>
      by_cases hn : tx.amount < 0
      · rw [Database.dispute_neg hc ht hn] at h; cases h
      · have hd : c0.hold tx.amount =
            .ok { c0 with available := c0.available - tx.amount,
                          held := c0.held + tx.amount } := by
          unfold Client.hold
          rw [if_neg hn]
        refine ⟨c0, tx, rfl, rfl, not_lt.mp hn, ?_⟩
        rw [Database.dispute_ok hc ht hn hd]

theorem Database.chargeback_ok_inv {db : Database} {cid tid : Nat}
    (h : (db.chargeback cid tid).1 = none) :
    ∃ c0 tx, aget cid db.clients = some c0 ∧ aget tid db.txs = some tx ∧
      0 ≤ tx.amount ∧ tx.amount ≤ c0.held ∧
      (db.chargeback cid tid).2 =
        { db with clients := aset cid { c0 with held := c0.held - tx.amount, locked := true } db.clients } := by
  cases hc : aget cid db.clients with
  | none => rw [Database.chargeback_noClient hc] at h; cases h
  | some c0 =>
    cases ht : aget tid db.txs with
    | none => rw [Database.chargeback_noTx hc ht] at h; cases h
    | some tx =>
      by_cases hn : tx.amount < 0
      · rw [Database.chargeback_neg hc ht hn] at h; cases h
      · cases hd : c0.chargeback tx.amount with
        | error e => rw [Database.chargeback_err hc ht hn hd] at h; cases h
        | ok c1 =>
          obtain ⟨-, hle, hc1⟩ := Client.chargeback_invert hd
          refine ⟨c0, tx, rfl, rfl, not_lt.mp hn, hle, ?_⟩
          rw [Database.chargeback_ok hc ht hn hd, hc1]

theorem Database.deposit_ok_inv {db : Database} {cid tid : Nat} {a : Amount}
    (h : (db.deposit cid tid a).1 = none) :
    availOf (db.deposit cid tid a).2 cid = availOf db cid + a ∧
    aget tid (db.deposit cid tid a).2.txs = some ⟨tid, a⟩ := by
  cases hdup : (aget tid db.txs).isSome with
  | true => rw [Database.deposit_dup hdup] at h; cases h
  | false =>
    cases hc : aget cid db.clients with
    | some c0 =>
      cases hd : c0.deposit a with
      | error e => rw [Database.deposit_some_err hdup hc hd] at h; cases h
      | ok c1 =>
        obtain ⟨-, hc1⟩ := Client.deposit_ok hd
        rw [Database.deposit_some_ok hdup hc hd]
        constructor
        · show ((aget cid (aset cid c1 db.clients)).map Client.available).getD 0 = _
          rw [aget_aset, if_pos rfl, hc1]
          show c0.available + a = availOf db cid + a
          rw [availOf, hc]
          rfl
        · show aget tid (aset tid _ db.txs) = _
          rw [aget_aset, if_pos rfl]
    | none =>
      cases hd : (Client.new cid).deposit a with
      | error e => rw [Database.deposit_none_err hdup hc hd] at h; cases h
      | ok c1 =>
        obtain ⟨-, hc1⟩ := Client.deposit_ok hd
        rw [Database.deposit_none_ok hdup hc hd]
        constructor
        · show ((aget cid (aset cid c1 db.clients)).map Client.available).getD 0 = _
          rw [aget_aset, if_pos rfl, hc1]
          show (Client.new cid).available + a = availOf db cid + a
          rw [availOf, hc]
          rfl
        · show aget tid (aset tid _ db.txs) = _
          rw [aget_aset, if_pos rfl]

theorem Database.withdraw_ok_inv {db : Database} {cid tid : Nat} {a : Amount}
    (h : (db.withdraw cid tid a).1 = none) :
    aget tid (db.withdraw cid tid a).2.txs = some ⟨tid, -a⟩ := by
  cases hdup : (aget tid db.txs).isSome with
  | true => rw [Database.withdraw_dup hdup] at h; cases h
  | false =>
    cases hc : aget cid db.clients with
    | some c0 =>
      cases hd : c0.withdraw a with
      | error e => rw [Database.withdraw_some_err hdup hc hd] at h; cases h
      | ok c1 =>
        rw [Database.withdraw_some_ok hdup hc hd]
        show aget tid (aset tid _ db.txs) = _
        rw [aget_aset, if_pos rfl]
    | none =>
      cases hd : (Client.new cid).withdraw a with
      | error e => rw [Database.withdraw_none_err hdup hc hd] at h; cases h
      | ok c1 =>
        rw [Database.withdraw_none_ok hdup hc hd]
        show aget tid (aset tid _ db.txs) = _
        rw [aget_aset, if_pos rfl]

/-! ### Claims -/

/-- C1, counterexample: the claim "available ≥ 0 after every sequence of
ledger operations" is false.  Deposit 100 (tx 1), withdraw 60 (tx 2), then
dispute tx 1: `Client::hold` subtracts the disputed 100 from the remaining
40 available without any check, leaving available = -60 < 0. -/
theorem c1_counterexample :
    availOf (Database.runRecords Database.new
      [.deposit 1 1 100, .withdrawal 1 2 60, .dispute 1 1]) 1 = -60 ∧
    (-60 : Amount) < 0 :=
  ⟨by rfl, by decide⟩

/-- C1, amended: after every sequence of ledger operations applied to the
empty database, every client account satisfies held ≥ 0; available ≥ 0 is
guaranteed for sequences containing no dispute (a successful dispute may
drive available negative; no other operation can leave either field
negative). -/
theorem c1_held_nonneg (ops : List Record) (cid : Nat) (c : Client)
    (h : aget cid (Database.runRecords Database.new ops).clients = some c) :
    0 ≤ c.held ∧ (hasDispute ops = false → 0 ≤ c.available) :=
  ⟨heldInv_runRecords ops heldInv_new cid c h,
   fun hnd => availInv_runRecords ops availInv_new hnd cid c h⟩

/-- C1 witness: after a single deposit of 100, client 1 exists with
held = 0 ≥ 0 and (the run has no dispute) available = 100 ≥ 0. -/
theorem c1_held_nonneg_witness :
    aget 1 (Database.runRecords Database.new [.deposit 1 1 100]).clients =
      some ⟨1, 100, 0, false⟩ ∧
    (0 ≤ (⟨1, 100, 0, false⟩ : Client).held ∧
     (hasDispute [Record.deposit 1 1 100] = false →
      0 ≤ (⟨1, 100, 0, false⟩ : Client).available)) :=
  ⟨by rfl, c1_held_nonneg [.deposit 1 1 100] 1 ⟨1, 100, 0, false⟩ (by rfl)⟩

/-- C2, counterexample: the claim "Dispute fails with an insufficient-funds
error whenever available - tx.amount < 0" is false.  With available = 40 and
stored tx amount 100 (so available - amount = -60 < 0), dispute succeeds. -/
theorem c2_counterexample :
    availOf (Database.runRecords Database.new
      [.deposit 1 1 100, .withdrawal 1 2 60]) 1 = 40 ∧
    aget 1 (Database.runRecords Database.new
      [.deposit 1 1 100, .withdrawal 1 2 60]).txs = some ⟨1, 100⟩ ∧
    (40 : Amount) - 100 < 0 ∧
    ((Database.runRecords Database.new
      [.deposit 1 1 100, .withdrawal 1 2 60]).dispute 1 1).1 = none :=
  ⟨by rfl, by rfl, by decide, by rfl⟩

/-- C2, amended: for every existing client and stored non-negative
transaction, Dispute(client, tx) always succeeds — there is no
insufficient-funds check and available may go negative — and performs
exactly `available -= tx.amount; held += tx.amount`. -/
theorem c2_dispute_effect (db : Database) (cid t : Nat) (c : Client) (tx : Tx)
    (h1 : aget cid db.clients = some c) (h2 : aget t db.txs = some tx)
    (h3 : 0 ≤ tx.amount) :
    (db.dispute cid t).1 = none ∧
    (db.dispute cid t).2 =
      { db with clients := aset cid { c with available := c.available - tx.amount, held := c.held + tx.amount } db.clients } := by
  have hn : ¬ tx.amount < 0 := not_lt.mpr h3
  have hd : c.hold tx.amount =
      .ok { c with available := c.available - tx.amount, held := c.held + tx.amount } := by
    unfold Client.hold
    rw [if_neg hn]
  rw [Database.dispute_ok h1 h2 hn hd]
  exact ⟨rfl, rfl⟩

/-- C2 witness: disputing the stored deposit of 100 against a client with
available = 40 succeeds and moves exactly 100 from available (to -60) into
held. -/
theorem c2_dispute_effect_witness :
    aget 1 (Database.mk [(1, ⟨1, 40, 0, false⟩)] [(1, ⟨1, 100⟩)]).clients =
      some ⟨1, 40, 0, false⟩ ∧
    aget 1 (Database.mk [(1, ⟨1, 40, 0, false⟩)] [(1, ⟨1, 100⟩)]).txs =
      some ⟨1, 100⟩ ∧
    (0 : Amount) ≤ (100 : Amount) ∧
    ((Database.mk [(1, ⟨1, 40, 0, false⟩)] [(1, ⟨1, 100⟩)]).dispute 1 1).1 = none ∧
    ((Database.mk [(1, ⟨1, 40, 0, false⟩)] [(1, ⟨1, 100⟩)]).dispute 1 1).2 =
      Database.mk [(1, ⟨1, -60, 100, false⟩)] [(1, ⟨1, 100⟩)] :=
  have h := c2_dispute_effect (Database.mk [(1, ⟨1, 40, 0, false⟩)] [(1, ⟨1, 100⟩)])
    1 1 ⟨1, 40, 0, false⟩ ⟨1, 100⟩ (by rfl) (by rfl) (by decide)
  ⟨by rfl, by rfl, by decide, h.1, h.2.trans (by decide)⟩

/-- C3, counterexample: the claim "whenever an operation fails the entire
store state, including which clients exist, is exactly what it was before"
is false.  A withdrawal by an unknown client fails with insufficient funds
but leaves a freshly created zero-balance client 1 in the store. -/
theorem c3_counterexample :
    (Database.new.withdraw 1 1 5).1 = some .insufficientAvailable ∧
    (Database.new.withdraw 1 1 5).2 ≠ Database.new :=
  ⟨by rfl, by decide⟩

/-- C3, amended: whenever an operation fails, the transaction table is
unchanged and every client is pointwise unchanged, except that a failed
deposit or withdrawal may have lazily created the referenced client with
zero balances (`Client::new`). -/
theorem c3_atomicity (db : Database) (r : Record) (e : LedgerError) (cid : Nat)
    (h : (db.applyRecord r).1 = some e) :
    (db.applyRecord r).2.txs = db.txs ∧
    (aget cid (db.applyRecord r).2.clients = aget cid db.clients ∨
     (aget cid db.clients = none ∧
      aget cid (db.applyRecord r).2.clients = some (Client.new cid))) := by
  cases r with
  | deposit c t a => exact Database.deposit_fail h cid
  | withdrawal c t a => exact Database.withdraw_fail h cid
  | dispute c t =>
    have hs : (db.dispute c t).2 = db := Database.dispute_fail h
    refine ⟨?_, Or.inl ?_⟩
    · show (db.dispute c t).2.txs = db.txs
      rw [hs]
    · show aget cid (db.dispute c t).2.clients = aget cid db.clients
      rw [hs]
  | resolve c t =>
    have hs : (db.resolve c t).2 = db := Database.resolve_fail h
    refine ⟨?_, Or.inl ?_⟩
    · show (db.resolve c t).2.txs = db.txs
      rw [hs]
    · show aget cid (db.resolve c t).2.clients = aget cid db.clients
      rw [hs]
  | chargeback c t =>
    have hs : (db.chargeback c t).2 = db := Database.chargeback_fail h
    refine ⟨?_, Or.inl ?_⟩
    · show (db.chargeback c t).2.txs = db.txs
      rw [hs]
    · show aget cid (db.chargeback c t).2.clients = aget cid db.clients
      rw [hs]

/-- C3 witness: the failed withdrawal of 5 by unknown client 1 left the
transaction table unchanged and created exactly the zero-balance client 1. -/
theorem c3_atomicity_witness :
    (Database.new.applyRecord (.withdrawal 1 1 5)).1 =
      some LedgerError.insufficientAvailable ∧
    ((Database.new.applyRecord (.withdrawal 1 1 5)).2.txs = Database.new.txs ∧
     (aget 1 (Database.new.applyRecord (.withdrawal 1 1 5)).2.clients =
        aget 1 Database.new.clients ∨
      (aget 1 Database.new.clients = none ∧
       aget 1 (Database.new.applyRecord (.withdrawal 1 1 5)).2.clients =
         some (Client.new 1)))) :=
  ⟨by rfl, c3_atomicity Database.new (.withdrawal 1 1 5)
    LedgerError.insufficientAvailable 1 (by rfl)⟩

theorem dispute_resolve_restore {db : Database} {c t : Nat}
    (hinv : HeldInv db) (h : (db.dispute c t).1 = none) :
    ((db.dispute c t).2.resolve c t).1 = none ∧
    projAH ((db.dispute c t).2.resolve c t).2 c = projAH db c := by
  obtain ⟨c0, tx, hc, htx, ha, hs2⟩ := Database.dispute_ok_inv h
  have hheld : 0 ≤ c0.held := hinv c c0 hc
  have hn : ¬ tx.amount < 0 := not_lt.mpr ha
  have hc1 : aget c (db.dispute c t).2.clients =
      some { c0 with available := c0.available - tx.amount, held := c0.held + tx.amount } := by
    rw [hs2]
    show aget c (aset c _ db.clients) = _
    rw [aget_aset, if_pos rfl]
  have ht1 : aget t (db.dispute c t).2.txs = some tx := by
    rw [hs2]
    exact htx
  have hn2 : ¬ ({ c0 with available := c0.available - tx.amount, held := c0.held + tx.amount } : Client).held < tx.amount := by
    show ¬ c0.held + tx.amount < tx.amount
    exact not_lt.mpr (le_add_of_nonneg_left hheld)
  have hrel : ({ c0 with available := c0.available - tx.amount, held := c0.held + tx.amount } : Client).release tx.amount =
      .ok { id := c0.id, available := c0.available - tx.amount + tx.amount,
            held := c0.held + tx.amount - tx.amount, locked := c0.locked } := by
    unfold Client.release
    rw [if_neg hn, if_neg hn2]
  rw [Database.resolve_ok hc1 ht1 hn hrel]
  refine ⟨rfl, ?_⟩
  unfold projAH
  show (aget c (aset c _ (db.dispute c t).2.clients)).map _ = _
  rw [aget_aset, if_pos rfl, hc]
  simp only [Option.map_some', Option.some.injEq, Prod.mk.injEq]
  constructor <;> simp

/-- C4: whenever a Dispute(c, t) succeeds on a state reachable by running
records from the empty database, immediately applying Resolve(c, t)
succeeds as well and restores the client's available and held fields to
exactly their pre-dispute values. -/
theorem c4_dispute_then_resolve (ops : List Record) (c t : Nat)
    (h : ((Database.runRecords Database.new ops).dispute c t).1 = none) :
    (((Database.runRecords Database.new ops).dispute c t).2.resolve c t).1 = none ∧
    projAH (((Database.runRecords Database.new ops).dispute c t).2.resolve c t).2 c =
      projAH (Database.runRecords Database.new ops) c :=
  dispute_resolve_restore (heldInv_runRecords ops heldInv_new) h

/-- C4 witness: after depositing 100 as tx 1, disputing tx 1 succeeds, and
resolving it immediately afterwards succeeds and restores
(available, held) = (100, 0). -/
theorem c4_dispute_then_resolve_witness :
    ((Database.runRecords Database.new [.deposit 1 1 100]).dispute 1 1).1 = none ∧
    ((((Database.runRecords Database.new [.deposit 1 1 100]).dispute 1 1).2.resolve 1 1).1 = none ∧
     projAH ((((Database.runRecords Database.new [.deposit 1 1 100]).dispute 1 1).2.resolve 1 1)).2 1 =
       projAH (Database.runRecords Database.new [.deposit 1 1 100]) 1) :=
  ⟨by rfl, c4_dispute_then_resolve [.deposit 1 1 100] 1 1 (by rfl)⟩

/-- C5: an accepted Deposit(c, t, a) increases the client's available funds
by exactly `a` and records the transaction `⟨t, a⟩` (the positive sign
convention for deposits); after any further operations, a Deposit or
Withdrawal reusing transaction id `t` is rejected as a duplicate and leaves
the whole store (hence all balances) unchanged. -/
theorem c5_deposit_effect_and_unique (db : Database) (c t : Nat) (a : Amount)
    (h : (db.deposit c t a).1 = none) (ops : List Record) (c' : Nat) (a' : Amount) :
    availOf (db.deposit c t a).2 c = availOf db c + a ∧
    aget t (db.deposit c t a).2.txs = some ⟨t, a⟩ ∧
    ((Database.runRecords (db.deposit c t a).2 ops).deposit c' t a').1 =
      some .duplicateTx ∧
    ((Database.runRecords (db.deposit c t a).2 ops).deposit c' t a').2 =
      Database.runRecords (db.deposit c t a).2 ops ∧
    ((Database.runRecords (db.deposit c t a).2 ops).withdraw c' t a').1 =
      some .duplicateTx ∧
    ((Database.runRecords (db.deposit c t a).2 ops).withdraw c' t a').2 =
      Database.runRecords (db.deposit c t a).2 ops := by
  obtain ⟨hav, htx⟩ := Database.deposit_ok_inv h
  have hper : aget t (Database.runRecords (db.deposit c t a).2 ops).txs =
      some ⟨t, a⟩ := txs_persist_runRecords ops htx
  have hdup : (aget t (Database.runRecords (db.deposit c t a).2 ops).txs).isSome
      = true := by rw [hper]; rfl
  have h1 := @Database.deposit_dup (Database.runRecords (db.deposit c t a).2 ops)
    c' t a' hdup
  have h2 := @Database.withdraw_dup (Database.runRecords (db.deposit c t a).2 ops)
    c' t a' hdup
  exact ⟨hav, htx, by rw [h1], by rw [h1], by rw [h2], by rw [h2]⟩

/-- C5 witness: deposit 100 as tx 1 on the empty database; available goes
from 0 to 100, tx 1 stores amount 100, and a later deposit or withdrawal
reusing tx 1 is rejected as a duplicate without changing anything. -/
theorem c5_deposit_effect_and_unique_witness :
    (Database.new.deposit 1 1 100).1 = none ∧
    (availOf (Database.new.deposit 1 1 100).2 1 = availOf Database.new 1 + 100 ∧
     aget 1 (Database.new.deposit 1 1 100).2.txs = some ⟨1, 100⟩ ∧
     ((Database.runRecords (Database.new.deposit 1 1 100).2 []).deposit 2 1 5).1 =
       some .duplicateTx ∧
     ((Database.runRecords (Database.new.deposit 1 1 100).2 []).deposit 2 1 5).2 =
       Database.runRecords (Database.new.deposit 1 1 100).2 [] ∧
     ((Database.runRecords (Database.new.deposit 1 1 100).2 []).withdraw 2 1 5).1 =
       some .duplicateTx ∧
     ((Database.runRecords (Database.new.deposit 1 1 100).2 []).withdraw 2 1 5).2 =
       Database.runRecords (Database.new.deposit 1 1 100).2 []) :=
  ⟨by rfl, c5_deposit_effect_and_unique Database.new 1 1 100 (by rfl) [] 2 5⟩

/-- C6: after a successful Chargeback(c, t), held decreases by exactly
tx.amount, locked becomes true, and locked remains true after every
subsequent sequence of operations, whatever their kinds or outcomes. -/
theorem c6_chargeback_locks (db : Database) (c t : Nat) (tx : Tx)
    (h1 : aget t db.txs = some tx) (h2 : (db.chargeback c t).1 = none)
    (ops : List Record) :
    heldOf (db.chargeback c t).2 c = heldOf db c - tx.amount ∧
    lockedOf (db.chargeback c t).2 c = true ∧
    lockedOf (Database.runRecords (db.chargeback c t).2 ops) c = true := by
  obtain ⟨c0, tx', hc, ht, -, -, hs⟩ := Database.chargeback_ok_inv h2
  have htt : tx' = tx := by
    rw [h1] at ht
    exact (Option.some.inj ht).symm
  subst htt
  have hl : lockedOf (db.chargeback c t).2 c = true := by
    unfold lockedOf
    rw [hs]
    show ((aget c (aset c _ db.clients)).map Client.locked).getD false = true
    rw [aget_aset, if_pos rfl]
    rfl
  refine ⟨?_, hl, lockedOf_runRecords ops hl⟩
  unfold heldOf
  rw [hs, hc]
  show ((aget c (aset c _ db.clients)).map Client.held).getD 0 = _
  rw [aget_aset, if_pos rfl]
  rfl

/-- C6 witness: with client 1 holding 5 under dispute, chargeback of tx 1
succeeds, held drops from 5 to 0, locked becomes true and stays true after
a further deposit. -/
theorem c6_chargeback_locks_witness :
    aget 1 (Database.mk [(1, ⟨1, 0, 5, false⟩)] [(1, ⟨1, 5⟩)]).txs = some ⟨1, 5⟩ ∧
    ((Database.mk [(1, ⟨1, 0, 5, false⟩)] [(1, ⟨1, 5⟩)]).chargeback 1 1).1 = none ∧
    (heldOf ((Database.mk [(1, ⟨1, 0, 5, false⟩)] [(1, ⟨1, 5⟩)]).chargeback 1 1).2 1 =
       heldOf (Database.mk [(1, ⟨1, 0, 5, false⟩)] [(1, ⟨1, 5⟩)]) 1 - (⟨1, 5⟩ : Tx).amount ∧
     lockedOf ((Database.mk [(1, ⟨1, 0, 5, false⟩)] [(1, ⟨1, 5⟩)]).chargeback 1 1).2 1 = true ∧
     lockedOf (Database.runRecords
       ((Database.mk [(1, ⟨1, 0, 5, false⟩)] [(1, ⟨1, 5⟩)]).chargeback 1 1).2
       [.deposit 1 2 7]) 1 = true) :=
  ⟨by rfl, by rfl,
   c6_chargeback_locks (Database.mk [(1, ⟨1, 0, 5, false⟩)] [(1, ⟨1, 5⟩)]) 1 1
     ⟨1, 5⟩ (by rfl) (by rfl) [.deposit 1 2 7]⟩

/-- C7, counterexample: the claim "disputing a transaction stored by an
accepted withdrawal always fails" is false for a zero-amount withdrawal:
it is accepted, stores amount -0 = 0, and disputing it then succeeds. -/
theorem c7_counterexample :
    (Database.new.withdraw 1 1 0).1 = none ∧
    aget 1 (Database.new.withdraw 1 1 0).2.txs = some ⟨1, 0⟩ ∧
    ((Database.new.withdraw 1 1 0).2.dispute 1 1).1 = none :=
  ⟨by rfl, by decide, by decide⟩

/-- C7, amended: for every transaction stored by an accepted withdrawal of
positive amount, a later Dispute referencing it (after any further
operations, by any client) always fails and leaves the whole store
unchanged. -/
theorem c7_dispute_withdrawal_fails (db : Database) (c t : Nat) (a : Amount)
    (hpos : 0 < a) (h : (db.withdraw c t a).1 = none) (ops : List Record)
    (c' : Nat) :
    ((Database.runRecords (db.withdraw c t a).2 ops).dispute c' t).1.isSome = true ∧
    ((Database.runRecords (db.withdraw c t a).2 ops).dispute c' t).2 =
      Database.runRecords (db.withdraw c t a).2 ops := by
  have htx := Database.withdraw_ok_inv h
  have hper : aget t (Database.runRecords (db.withdraw c t a).2 ops).txs =
      some ⟨t, -a⟩ := txs_persist_runRecords ops htx
  have hneg : (⟨t, -a⟩ : Tx).amount < 0 := by
    show -a < 0
    exact neg_lt_zero.mpr hpos
  cases hc : aget c' (Database.runRecords (db.withdraw c t a).2 ops).clients with
  | none =>
    rw [Database.dispute_noClient hc]
    exact ⟨rfl, rfl⟩
  | some c0 =>
    rw [Database.dispute_neg hc hper hneg]
    exact ⟨rfl, rfl⟩

/-- C7 witness: withdraw 3 (tx 2) from client 1 who has 5 available; the
stored tx 2 has amount -3, and disputing tx 2 afterwards fails and changes
nothing. -/
theorem c7_dispute_withdrawal_fails_witness :
    (0 : Amount) < 3 ∧
    ((Database.mk [(1, ⟨1, 5, 0, false⟩)] [(1, ⟨1, 5⟩)]).withdraw 1 2 3).1 = none ∧
    (((Database.runRecords
        ((Database.mk [(1, ⟨1, 5, 0, false⟩)] [(1, ⟨1, 5⟩)]).withdraw 1 2 3).2
        []).dispute 1 2).1.isSome = true ∧
     ((Database.runRecords
        ((Database.mk [(1, ⟨1, 5, 0, false⟩)] [(1, ⟨1, 5⟩)]).withdraw 1 2 3).2
        []).dispute 1 2).2 =
       Database.runRecords
        ((Database.mk [(1, ⟨1, 5, 0, false⟩)] [(1, ⟨1, 5⟩)]).withdraw 1 2 3).2 []) :=
  ⟨by decide, by rfl,
   c7_dispute_withdrawal_fails (Database.mk [(1, ⟨1, 5, 0, false⟩)] [(1, ⟨1, 5⟩)])
     1 2 3 (by decide) (by rfl) [] 1⟩

/-- C8, counterexample: the claim "when the client did not previously exist
the lazily created account's withdrawal always fails with InsufficientFunds"
is false for amount 0: the withdrawal of 0 from a fresh zero-balance
account succeeds. -/
theorem c8_counterexample :
    aget 1 Database.new.clients = none ∧ (Database.new.withdraw 1 1 0).1 = none :=
  ⟨by rfl, by rfl⟩

/-- C8, amended: for a fresh transaction id and a ≥ 0, Withdrawal(c, t, a)
fails with the insufficient-funds error exactly when a exceeds the client's
available funds, and such a failure leaves available unchanged; when client
c did not previously exist, the account is lazily created with zero
balances and the withdrawal fails with insufficient funds exactly when
a > 0 (a zero-amount withdrawal succeeds). -/
theorem c8_withdraw_insufficient (db : Database) (c t : Nat) (a : Amount)
    (ha : 0 ≤ a) (hfresh : aget t db.txs = none) :
    ((db.withdraw c t a).1 = some .insufficientAvailable ↔ availOf db c < a) ∧
    ((db.withdraw c t a).1 = some .insufficientAvailable →
      availOf (db.withdraw c t a).2 c = availOf db c) ∧
    (aget c db.clients = none →
      aget c (db.withdraw c t a).2.clients = some (Client.new c) ∧
      ((db.withdraw c t a).1 = some .insufficientAvailable ↔ 0 < a)) := by
  have hdup : (aget t db.txs).isSome = false := by rw [hfresh]; rfl
  have hna : ¬ a < 0 := not_lt.mpr ha
  cases hc : aget c db.clients with
  | some c0 =>
    have hav : availOf db c = c0.available := by unfold availOf; rw [hc]; rfl
    by_cases hlt : c0.available < a
    · have hd : c0.withdraw a = .error .insufficientAvailable := by
        unfold Client.withdraw
        rw [if_neg hna, if_pos hlt]
      rw [Database.withdraw_some_err hdup hc hd]
      refine ⟨⟨fun _ => by rw [hav]; exact hlt, fun _ => rfl⟩, fun _ => rfl, ?_⟩
      intro hnone
      cases hnone
    · have hd : c0.withdraw a = .ok { c0 with available := c0.available - a } := by
        unfold Client.withdraw
        rw [if_neg hna, if_neg hlt]
      rw [Database.withdraw_some_ok hdup hc hd]
      refine ⟨⟨fun hcontra => (nomatch hcontra), ?_⟩,
        fun hcontra => (nomatch hcontra), ?_⟩
      · intro hlt2
        rw [hav] at hlt2
        exact absurd hlt2 hlt
      · intro hnone
        cases hnone
  | none =>
    have hav : availOf db c = 0 := by unfold availOf; rw [hc]; rfl
    by_cases h0 : (0 : Amount) < a
    · have hlt : (Client.new c).available < a := h0
      have hd : (Client.new c).withdraw a = .error .insufficientAvailable := by
        unfold Client.withdraw
        rw [if_neg hna, if_pos hlt]
      rw [Database.withdraw_none_err hdup hc hd]
      refine ⟨⟨fun _ => by rw [hav]; exact h0, fun _ => rfl⟩, ?_, ?_⟩
      · intro _
        unfold availOf
        show ((aget c (aset c (Client.new c) db.clients)).map _).getD 0 = _
        rw [aget_aset, if_pos rfl, hc]
        rfl
      · intro _
        refine ⟨?_, fun _ => h0, fun _ => rfl⟩
        show aget c (aset c (Client.new c) db.clients) = _
        rw [aget_aset, if_pos rfl]
    · have ha0 : a = 0 := le_antisymm (not_lt.mp h0) ha
      subst ha0
      have h0' : ¬ (Client.new c).available < (0 : Amount) := h0
      have hd : (Client.new c).withdraw 0 =
          .ok { Client.new c with available := (Client.new c).available - 0 } := by
        unfold Client.withdraw
        rw [if_neg hna, if_neg h0']
      rw [Database.withdraw_none_ok hdup hc hd]
      refine ⟨⟨fun hcontra => (nomatch hcontra), ?_⟩,
        fun hcontra => (nomatch hcontra), ?_⟩
      · intro hlt2
        rw [hav] at hlt2
        exact absurd hlt2 (lt_irrefl 0)
      · intro _
        refine ⟨?_, fun hcontra => (nomatch hcontra), fun hcontra => absurd hcontra (lt_irrefl 0)⟩
        show aget c (aset c _ db.clients) = _
        rw [aget_aset, if_pos rfl]
        simp [Client.new]

/-- C8 witness: on the empty database a withdrawal of 1 by unknown client 1
is insufficient exactly because 0 < 1; the account is created with zero
balances and available is unchanged by the failure. -/
theorem c8_withdraw_insufficient_witness :
    (0 : Amount) ≤ 1 ∧ aget 1 Database.new.txs = none ∧
    (((Database.new.withdraw 1 1 1).1 = some .insufficientAvailable ↔
        availOf Database.new 1 < 1) ∧
     ((Database.new.withdraw 1 1 1).1 = some .insufficientAvailable →
        availOf (Database.new.withdraw 1 1 1).2 1 = availOf Database.new 1) ∧
     (aget 1 Database.new.clients = none →
        aget 1 (Database.new.withdraw 1 1 1).2.clients = some (Client.new 1) ∧
        ((Database.new.withdraw 1 1 1).1 = some .insufficientAvailable ↔
          (0 : Amount) < 1))) :=
  ⟨by decide, by rfl, c8_withdraw_insufficient Database.new 1 1 1 (by decide) (by rfl)⟩

/-- C9: the batch `process` of tx.rs and the incremental `Database`
operations of db.rs do NOT produce identical end states.  On
Deposit(1,1,100), Withdrawal(1,2,60), Dispute(1,1) the batch rejects the
dispute (insufficient available) leaving client 1 at (available, held) =
(40, 0), while the incremental engine applies it, leaving (-60, 100).
Moreover the batch chargeback arm is `todo!()` and aborts the run. -/
theorem c9_batch_incremental_diverge :
    Batch.process [.deposit 1 1 100, .withdrawal 1 2 60, .dispute 1 1] =
      .ok [(1, ⟨1, 40, 0, false⟩)] ∧
    aget 1 (Database.runRecords Database.new
      [.deposit 1 1 100, .withdrawal 1 2 60, .dispute 1 1]).clients =
      some ⟨1, -60, 100, false⟩ ∧
    (40 : Amount) ≠ -60 ∧
    Batch.process [.chargeback 1 1] = .error .chargebackTodo :=
  ⟨by rfl, by rfl, by decide, by rfl⟩

theorem mapAH_projAH {m1 m2 : List (Nat × Client)} (h : MapAH m1 m2) (k : Nat) :
    (aget k m1).map (fun c => (c.available, c.held)) =
    (aget k m2).map (fun c => (c.available, c.held)) := by
  cases hc1 : aget k m1 with
  | none => rw [MapAH_none h hc1]
  | some c =>
    obtain ⟨c', hc2, hv⟩ := MapAH_some h hc1
    obtain ⟨-, h2, h3⟩ := Client.ahView_eq hv
    rw [hc2]
    simp [h2, h3]

/-- C10: no Database operation inspects the locked flag: for every state,
record and client, flipping any client's locked flag changes neither the
success/failure outcome of the operation nor any client's resulting
(available, held) pair. -/
theorem c10_locked_never_inspected (db : Database) (cid : ClientId) (b : Bool)
    (r : Record) (k : Nat) :
    ((setLocked db cid b).applyRecord r).1 = (db.applyRecord r).1 ∧
    projAH ((setLocked db cid b).applyRecord r).2 k = projAH (db.applyRecord r).2 k := by
  have hm : MapAH (setLocked db cid b).clients db.clients :=
    fun k' => (setLocked_mapAH db cid b k').symm
  have hsim := sim_applyRecord (setLocked_txs db cid b) hm r
  exact ⟨hsim.1, mapAH_projAH hsim.2.2 k⟩
